import Mathlib

/-!
Verification of the MovieActor game engine (the `MovieActor` class of the
repository's game module) against its natural-language specification.

The engine is shallowly embedded: the SQLite tables the prepared statements
read (`title_principals`, `title_basics`, `name_basics`, `title_ratings`)
become lists of records, each prepared statement becomes a pure function on
that data, and the mutable instance state of the class becomes an explicit
`Game` record threaded through the move functions.  The FTS5 index is
external to the repository, so fuzzy matching is abstracted as a predicate
parameter; everything else is translated clause-for-clause from the source.
-/

namespace MovieActor

/-- A row of `title_principals`: one cast/crew credit. -/
structure Principal where
  tconst : String
  nconst : String
  category : String
  ordering : Nat
deriving DecidableEq

/-- A row of `title_basics`. -/
structure Title where
  tconst : String
  primaryTitle : String
  titleType : String
  startYear : Int
deriving DecidableEq

/-- A row of `name_basics`. -/
structure NameRec where
  nconst : String
  primaryName : String
deriving DecidableEq

/-- A row of `title_ratings`. -/
structure Rating where
  tconst : String
  numVotes : Nat
deriving DecidableEq

/-- The read-only store the engine queries (better-sqlite3 database). -/
structure DB where
  principals : List Principal
  titles : List Title
  names : List NameRec
  ratings : List Rating
deriving DecidableEq

/-- `tp.category IN ('actor', 'actress')`. -/
def isActing (c : String) : Bool := c == "actor" || c == "actress"

/-- Primary-key lookup in `title_basics`. -/
def lookupTitle (db : DB) (t : String) : Option Title :=
  db.titles.find? (fun x => x.tconst == t)

/-- Primary-key lookup in `name_basics`. -/
def lookupName (db : DB) (n : String) : Option NameRec :=
  db.names.find? (fun x => x.nconst == n)

/-- `COALESCE(r.num_votes, 0)` through the LEFT JOIN on `title_ratings`. -/
def numVotesOf (db : DB) (t : String) : Nat :=
  match db.ratings.find? (fun r => r.tconst == t) with
  | some r => r.numVotes
  | none => 0

/-- `start_year` of a title (0 when the title row is absent). -/
def yearOf (db : DB) (t : String) : Int :=
  match lookupTitle db t with
  | some tt => tt.startYear
  | none => 0

/-- Whether `tconst` is a `title_basics` row with `title_type = 'movie'`. -/
def titleIsMovie (db : DB) (t : String) : Bool :=
  match lookupTitle db t with
  | some tt => tt.titleType == "movie"
  | none => false

/-- `stmtValidateActorInMovie`: membership of `(movieTconst, actorNconst)` in
`title_principals` with an acting category — no ordering / year / votes
filter at all (omniscient validation). -/
def stmtValidateActorInMovie (db : DB) (movieT actorN : String) : Bool :=
  db.principals.any (fun p => p.tconst == movieT && p.nconst == actorN && isActing p.category)

/-- `_validateActorInMovie(actorNconst, movieTconst)`: truthiness of the
validation statement's single row. -/
def validActorInMovie (db : DB) (actorN movieT : String) : Bool :=
  stmtValidateActorInMovie db movieT actorN

/-- The scalar subquery `SELECT COUNT(*) FROM title_principals WHERE nconst =
n.nconst AND category IN ('actor','actress')` (career_size). -/
def careerSize (db : DB) (n : String) : Nat :=
  (db.principals.filter (fun p => p.nconst == n && isActing p.category)).length

/-- The scalar subquery `SELECT COUNT(*) FROM title_principals WHERE tconst =
t.tconst AND category IN ('actor','actress')` (cast_size). -/
def castSize (db : DB) (t : String) : Nat :=
  (db.principals.filter (fun p => p.tconst == t && isActing p.category)).length

/-- The difficulty profile (`DIFFICULTY_CONFIG` entries). -/
structure Config where
  maxOrdering : Nat
  minYear : Int
  minVotes : Nat
  minVotesForStart : Nat
  minActorMovies : Nat
deriving DecidableEq

/-- `DIFFICULTY_CONFIG[EASY]`. -/
def easyConfig : Config := ⟨3, 1980, 100000, 200000, 15⟩

/-- `DIFFICULTY_CONFIG[MEDIUM]`. -/
def mediumConfig : Config := ⟨10, 1960, 10000, 50000, 8⟩

/-- `DIFFICULTY_CONFIG[HARD]`. -/
def hardConfig : Config := ⟨999, 1900, 1000, 5000, 3⟩

/-! ### Input normalization and FTS query generation -/

/-- Splitting on whitespace runs: accumulator of the token being read, in
reverse. -/
def splitWsAux : List Char → List Char → List String
  | [], cur => if cur.isEmpty then [] else [String.mk cur.reverse]
  | c :: rest, cur =>
    if c.isWhitespace then
      (if cur.isEmpty then splitWsAux rest [] else String.mk cur.reverse :: splitWsAux rest [])
    else splitWsAux rest (c :: cur)

/-- Whitespace-separated tokens of a string (JS `split(/\s+/)` with the empty
fragments dropped — the fragments of length 0 are also dropped by every
`length >= 3` filter applied downstream, so the two agree where used). -/
def wordsOf (s : String) : List String :=
  splitWsAux s.toList []

/-- Lowercasing, character by character (JS `toLowerCase`, ASCII range). -/
def lowerStr (s : String) : String :=
  String.mk (s.toList.map Char.toLower)

/-- `_normalizeInput`: `input.replace(/\s+/g, " ").trim()` — collapse each
whitespace run to one space and trim the ends. -/
def normalizeInput (s : String) : String :=
  " ".intercalate (wordsOf s)

/-- A JS `\w` character (ASCII word character). -/
def isWordChar (c : Char) : Bool := c.isAlphanum || c == '_'

/-- `replace(/[^\w\s]/g, "")`: keep only word characters and whitespace. -/
def stripPunct (s : String) : String :=
  String.mk (s.toList.filter (fun c => isWordChar c || c.isWhitespace))

/-- `_normalizeForLike`: lowercase, strip punctuation, collapse whitespace,
trim. -/
def normalizeForLike (s : String) : String :=
  normalizeInput (stripPunct (lowerStr s))

/-- The FTS5 `escape`: each double quote doubled. -/
def ftsEscape (s : String) : String :=
  s.toList.foldl (fun acc c => if c == '"' then acc ++ "\x22\x22" else acc.push c) ""

/-- A phrase query: the escaped string in double quotes. -/
def phraseQuery (s : String) : String := "\x22" ++ ftsEscape s ++ "\x22"

/-- `addQuery` of `_toFtsQueries`: append the query unless already present
(the `seen` set). -/
def addQuery (acc : List String) (q : String) : List String :=
  if acc.contains q then acc else acc ++ [q]

/-- The punctuation variations tried by `_toFtsQueries`: the input, then the
input with punctuation removed when that differs. -/
def variationsOf (input : String) : List String :=
  if stripPunct input ≠ input then [input, stripPunct input] else [input]

/-- The queries `_toFtsQueries` adds for one variation: the phrase query,
then — for ≥ 2 tokens of length ≥ 3 — the AND-conjunction of the quoted
tokens, or — for exactly one such token — that token quoted. -/
def variantQueries (variant : String) : List String :=
  let ws := (wordsOf variant).filter (fun w => decide (3 ≤ w.length))
  match ws with
  | [] => [phraseQuery variant]
  | [w] => [phraseQuery variant, phraseQuery w]
  | _ => [phraseQuery variant, " AND ".intercalate (ws.map phraseQuery)]

/-- `_toFtsQueries`: for each variation in order, add its phrase query and
then its token query, deduplicating along the way. -/
def toFtsQueries (input : String) : List String :=
  (variationsOf input).foldl (fun acc v => (variantQueries v).foldl addQuery acc) []

/-! ### Game state -/

inductive Player where
  | human
  | computer
deriving DecidableEq

inductive ItemType where
  | movie
  | actor
deriving DecidableEq

inductive GState where
  | idle
  | playing
  | challengePending
  | roundOver
  | gameOver
deriving DecidableEq

/-- `this.scores`, one per player. -/
structure Scores where
  human : Nat
  computer : Nat
deriving DecidableEq

/-- The mutable instance state of the `MovieActor` class (messages are
omitted; `currentItem` is kept by its id, its kind lives in
`currentItemType` exactly as in the source). -/
structure Game where
  gstate : GState
  currentPlayer : Option Player
  currentItemType : Option ItemType
  currentItemId : Option String
  usedActors : List String
  usedMovies : List String
  scores : Scores
  roundNumber : Nat
  winner : Option Player
  roundsToWin : Nat
deriving DecidableEq

def scoreOf (s : Scores) : Player → Nat
  | .human => s.human
  | .computer => s.computer

def bump (s : Scores) : Player → Scores
  | .human => { s with human := s.human + 1 }
  | .computer => { s with computer := s.computer + 1 }

def Player.other : Player → Player
  | .human => .computer
  | .computer => .human

/-- `_endRound(winner)`: increment the winner's score; when the new score
reaches `roundsToWin` the game is over with that winner, otherwise the
round is over. -/
def endRound (g : Game) (w : Player) : Game :=
  let ns := bump g.scores w
  if g.roundsToWin ≤ scoreOf ns w then
    { g with scores := ns, gstate := .gameOver, winner := some w }
  else
    { g with scores := ns, gstate := .roundOver }

/-! ### Sorting (the SQL ORDER BY clauses, as an insertion sort) -/

/-- Insert `x` before the first element it should not come after, for a
"comes-no-later-than" comparator `r`. -/
def insertSorted {α : Type} (r : α → α → Bool) (x : α) : List α → List α
  | [] => [x]
  | y :: ys => if r x y then x :: y :: ys else y :: insertSorted r x ys

/-- Sort by the comparator `r` (insertion sort). -/
def sortByB {α : Type} (r : α → α → Bool) : List α → List α
  | [] => []
  | x :: xs => insertSorted r x (sortByB r xs)

/-- Each adjacent pair satisfies the comparator. -/
def sortedByB {α : Type} (r : α → α → Bool) : List α → Bool
  | [] => true
  | [_] => true
  | a :: b :: rest => r a b && sortedByB r (b :: rest)

/-! ### The computer's candidate queries -/

/-- A row of `stmtComputerPickActorBase`. -/
structure ActorCand where
  nconst : String
  ordering : Nat
  careerSize : Nat
deriving DecidableEq

/-- A row of `stmtComputerPickMovieBase`. -/
structure MovieCand where
  tconst : String
  startYear : Int
  ordering : Nat
  castSize : Nat
  numVotes : Nat
deriving DecidableEq

/-- The WHERE clause of `stmtComputerPickActorBase` plus the dynamically
appended `n.nconst NOT IN (used)` clause: credit of this movie, acting
category, billing within `maxOrdering`, join partner in `name_basics`,
not an already-used actor.  Note no year or votes condition appears. -/
def actorRowPred (db : DB) (t : String) (maxOrd : Nat) (used : List String) (p : Principal) : Bool :=
  p.tconst == t && isActing p.category && decide (p.ordering ≤ maxOrd) &&
    (lookupName db p.nconst).isSome && !used.contains p.nconst

/-- The rows of `stmtComputerPickActorBase` (with used-id exclusion). -/
def computerPickActorRows (db : DB) (t : String) (maxOrd : Nat) (used : List String) : List ActorCand :=
  (db.principals.filter (actorRowPred db t maxOrd used)).map
    (fun p => ⟨p.nconst, p.ordering, careerSize db p.nconst⟩)

/-- The WHERE clause of `stmtComputerPickMovieBase` plus `t.tconst NOT IN
(used)`: credit of this actor, acting category, billing within
`maxOrdering`, a `title_basics` join partner of type movie with
`start_year >= minYear`, `COALESCE(num_votes,0) >= minVotes`, not an
already-used movie. -/
def movieRowPred (db : DB) (n : String) (cfg : Config) (used : List String) (p : Principal) : Bool :=
  p.nconst == n && isActing p.category && decide (p.ordering ≤ cfg.maxOrdering) &&
    (match lookupTitle db p.tconst with
     | some tt => tt.titleType == "movie" && decide (cfg.minYear ≤ tt.startYear)
     | none => false) &&
    decide (cfg.minVotes ≤ numVotesOf db p.tconst) && !used.contains p.tconst

/-- The rows of `stmtComputerPickMovieBase` (with used-id exclusion). -/
def computerPickMovieRows (db : DB) (n : String) (cfg : Config) (used : List String) : List MovieCand :=
  (db.principals.filter (movieRowPred db n cfg used)).map
    (fun p => ⟨p.tconst, yearOf db p.tconst, p.ordering, castSize db p.tconst, numVotesOf db p.tconst⟩)

/-- `ORDER BY career_size DESC`. -/
def actorCandGE (a b : ActorCand) : Bool := decide (b.careerSize ≤ a.careerSize)

/-- `ORDER BY cast_size DESC, COALESCE(r.num_votes, 0) DESC`. -/
def movieCandGE (a b : MovieCand) : Bool :=
  decide (b.castSize < a.castSize) ||
    (a.castSize == b.castSize && decide (b.numVotes ≤ a.numVotes))

/-- The candidate list of `_computerPicksActor`: the base rows ordered by
career size descending, `LIMIT 5`. -/
def pickActorCandidates (db : DB) (cfg : Config) (t : String) (used : List String) : List ActorCand :=
  (sortByB actorCandGE (computerPickActorRows db t cfg.maxOrdering used)).take 5

/-- The candidate list of `_computerPicksMovie`: the base rows ordered by
cast size then votes descending, `LIMIT 5`. -/
def pickMovieCandidates (db : DB) (cfg : Config) (n : String) (used : List String) : List MovieCand :=
  (sortByB movieCandGE (computerPickMovieRows db n cfg used)).take 5

/-- `_computerFindProofActor`: the base query with `LIMIT 1` — the first
matching row if any (same WHERE clause and used-id exclusion as the pick). -/
def computerFindProofActor (db : DB) (cfg : Config) (t : String) (used : List String) : Option ActorCand :=
  (computerPickActorRows db t cfg.maxOrdering used).head?

/-- `_computerFindProofMovie`: the base query with `LIMIT 1`. -/
def computerFindProofMovie (db : DB) (cfg : Config) (n : String) (used : List String) : Option MovieCand :=
  (computerPickMovieRows db n cfg used).head?

/-- `candidates[Math.floor(Math.random() * Math.min(candidates.length, 3))]`,
with the random draw supplied as a number `r` (the index taken modulo
`min(length, 3)`); `none` when there are no candidates. -/
def pickFrom {α : Type} : List α → Nat → Option α
  | [], _ => none
  | c0 :: rest, r => some ((c0 :: rest).getD (r % Nat.min (rest.length + 1) 3) c0)

/-! ### Human moves

The resolver calls `this.searchActors(query, 5)` / `this.searchMovies(query,
5)`; since the FTS index is an external store, the move functions take the
resolver as a function parameter `sa` / `sm` from the normalized query to the
ranked list of resolved ids.  The concrete resolver is modelled separately
below for the resolution-pipeline claims. -/

inductive MoveOutcome where
  | illegalState
  | notYourTurn
  | emptyInput
  | internalError
  | notFound
  | notConnected (bestId : String)
  | alreadyUsed (id : String)
  | valid (id : String)
deriving DecidableEq

/-- The `for (const actor of actors)` loop: the first resolved actor that is
in the current movie (the used check happens after this commitment). -/
def findFirstConnectedActor (db : DB) (t : String) : List String → Option String
  | [] => none
  | a :: rest => if validActorInMovie db a t then some a else findFirstConnectedActor db t rest

/-- The `for (const movie of movies)` loop: the first resolved movie that has
the current actor. -/
def findFirstConnectedMovie (db : DB) (n : String) : List String → Option String
  | [] => none
  | m :: rest => if validActorInMovie db n m then some m else findFirstConnectedMovie db n rest

/-- The state update of a valid human actor pick. -/
def applyHumanActor (g : Game) (a : String) : Game :=
  { g with usedActors := a :: g.usedActors, currentItemId := some a,
           currentItemType := some .actor, currentPlayer := some .computer }

/-- The state update of a valid human movie pick. -/
def applyHumanMovie (g : Game) (m : String) : Game :=
  { g with usedMovies := m :: g.usedMovies, currentItemId := some m,
           currentItemType := some .movie, currentPlayer := some .computer }

/-- `_humanPicksActor(query)` with `actors` the resolver's result: no result
is *not found*; otherwise the first connected result is committed to — if
already used the move is *already used*, else the move is valid; if no
result is connected, *not connected* reporting the best-ranked result. -/
def humanPicksActor (db : DB) (g : Game) (t : String) (actors : List String) : Game × MoveOutcome :=
  match actors with
  | [] => (g, .notFound)
  | a0 :: _ =>
    match findFirstConnectedActor db t actors with
    | some a =>
      if g.usedActors.contains a then (g, .alreadyUsed a) else (applyHumanActor g a, .valid a)
    | none => (g, .notConnected a0)

/-- `_humanPicksMovie(query)`, symmetric to `humanPicksActor`. -/
def humanPicksMovie (db : DB) (g : Game) (n : String) (movies : List String) : Game × MoveOutcome :=
  match movies with
  | [] => (g, .notFound)
  | m0 :: _ =>
    match findFirstConnectedMovie db n movies with
    | some m =>
      if g.usedMovies.contains m then (g, .alreadyUsed m) else (applyHumanMovie g m, .valid m)
    | none => (g, .notConnected m0)

/-- `humanMove(input)`: state and turn guards, input normalization, then the
direction dictated by `currentItemType`.  `cfg` is the difficulty profile
held by the instance; the source never reads it on this path. -/
def humanMove (db : DB) (cfg : Config) (sa sm : String → List String) (g : Game)
    (input : String) : Game × MoveOutcome :=
  if g.gstate ≠ GState.playing then (g, .illegalState)
  else if g.currentPlayer ≠ some Player.human then (g, .notYourTurn)
  else
    let normalized := normalizeInput input
    if normalized = "" then (g, .emptyInput)
    else
      match g.currentItemType with
      | some ItemType.movie =>
        (match g.currentItemId with
         | some t => humanPicksActor db g t (sa normalized)
         | none => (g, .internalError))
      | _ =>
        (match g.currentItemId with
         | some n => humanPicksMovie db g n (sm normalized)
         | none => (g, .internalError))

/-! ### Computer moves and challenges -/

inductive CompOutcome where
  | illegalState
  | notYourTurn
  | internalError
  | gaveUp
  | moved (id : String)
deriving DecidableEq

/-- `_computerPicksActor`: no candidate means the computer gives up and the
human wins the round; otherwise a random pick among the top 3 of the 5
candidates becomes the current item. -/
def computerPicksActor (db : DB) (cfg : Config) (r : Nat) (g : Game) (t : String) :
    Game × CompOutcome :=
  match pickFrom (pickActorCandidates db cfg t g.usedActors) r with
  | none => (endRound g .human, .gaveUp)
  | some pick =>
    ({ g with usedActors := pick.nconst :: g.usedActors, currentItemId := some pick.nconst,
              currentItemType := some .actor, currentPlayer := some .human },
     .moved pick.nconst)

/-- `_computerPicksMovie`, symmetric. -/
def computerPicksMovie (db : DB) (cfg : Config) (r : Nat) (g : Game) (n : String) :
    Game × CompOutcome :=
  match pickFrom (pickMovieCandidates db cfg n g.usedMovies) r with
  | none => (endRound g .human, .gaveUp)
  | some pick =>
    ({ g with usedMovies := pick.tconst :: g.usedMovies, currentItemId := some pick.tconst,
              currentItemType := some .movie, currentPlayer := some .human },
     .moved pick.tconst)

/-- `computerMove()`: guards, then the direction dictated by
`currentItemType`. -/
def computerMove (db : DB) (cfg : Config) (r : Nat) (g : Game) : Game × CompOutcome :=
  if g.gstate ≠ GState.playing then (g, .illegalState)
  else if g.currentPlayer ≠ some Player.computer then (g, .notYourTurn)
  else
    match g.currentItemType with
    | some ItemType.movie =>
      (match g.currentItemId with
       | some t => computerPicksActor db cfg r g t
       | none => (g, .internalError))
    | _ =>
      (match g.currentItemId with
       | some n => computerPicksMovie db cfg r g n
       | none => (g, .internalError))

inductive ChallengeOutcome where
  | illegalState
  | notYourTurn
  | internalError
  | computerWins (proofId : String)
  | humanWins
deriving DecidableEq

/-- `humanChallenge()`: guards, the `CHALLENGE_PENDING` interlude, the proof
search under the computer's profile for the entity the human was facing,
then `_endRound` for the computer (witness found, surfaced as proof) or
for the human (no witness). -/
def humanChallenge (db : DB) (cfg : Config) (g : Game) : Game × ChallengeOutcome :=
  if g.gstate ≠ GState.playing then (g, .illegalState)
  else if g.currentPlayer ≠ some Player.human then (g, .notYourTurn)
  else
    let g1 := { g with gstate := GState.challengePending }
    match g.currentItemType with
    | some ItemType.movie =>
      (match g.currentItemId with
       | some t =>
         (match computerFindProofActor db cfg t g.usedActors with
          | some c => (endRound g1 .computer, .computerWins c.nconst)
          | none => (endRound g1 .human, .humanWins))
       | none => (g1, .internalError))
    | _ =>
      (match g.currentItemId with
       | some n =>
         (match computerFindProofMovie db cfg n g.usedMovies with
          | some c => (endRound g1 .computer, .computerWins c.tconst)
          | none => (endRound g1 .human, .humanWins))
       | none => (g1, .internalError))

/-! ### The concrete actor resolver (for the resolution-pipeline claims)

`stmtSearchActors` joins the FTS index with `name_basics`, `title_principals`
and `title_basics`, groups by actor and orders by the distinct movie count
descending.  The FTS5 `MATCH` semantics lives in the external index, so it is
a predicate parameter `ftsMatch`; the rest of the statement is concrete. -/

/-- A result row of the actor searches. -/
structure ActorSearchRow where
  nconst : String
  primaryName : String
  movieCount : Nat
deriving DecidableEq

/-- `COUNT(DISTINCT tp.tconst)` over the acting credits of `n` in titles of
type movie. -/
def actorMovieCount (db : DB) (n : String) : Nat :=
  (((db.principals.filter
      (fun p => p.nconst == n && isActing p.category && titleIsMovie db p.tconst)).map
    (fun p => p.tconst)).dedup).length

/-- The grouped rows of the actor search for a given name predicate: one row
per `name_basics` entry whose name matches and that has at least one
qualifying credit (the inner joins). -/
def searchActorRows (db : DB) (p : String → Bool) : List ActorSearchRow :=
  (db.names.filter (fun nr => p nr.primaryName && decide (0 < actorMovieCount db nr.nconst))).map
    (fun nr => ⟨nr.nconst, nr.primaryName, actorMovieCount db nr.nconst⟩)

/-- `ORDER BY movie_count DESC`. -/
def searchRowGE (a b : ActorSearchRow) : Bool := decide (b.movieCount ≤ a.movieCount)

/-- `stmtSearchActors` for one FTS query string. -/
def stmtSearchActors (db : DB) (ftsMatch : String → String → Bool) (q : String)
    (limit : Nat) : List ActorSearchRow :=
  (sortByB searchRowGE (searchActorRows db (ftsMatch q))).take limit

/-- Whether `needle` starts `hay` (character lists). -/
def listStarts : List Char → List Char → Bool
  | [], _ => true
  | _ :: _, [] => false
  | n :: ns, h :: hs => n == h && listStarts ns hs

/-- Whether `needle` occurs inside `hay` (character lists). -/
def listHasSub (needle : List Char) : List Char → Bool
  | [] => listStarts needle []
  | h :: hs => listStarts needle (h :: hs) || listHasSub needle hs

/-- `LOWER(n.primary_name) LIKE '%' || needle || '%'`. -/
def likeNameMatch (needle : String) (name : String) : Bool :=
  listHasSub needle.toList (lowerStr name).toList

/-- `stmtSearchActorsLike` for the already-normalized needle. -/
def stmtSearchActorsLike (db : DB) (needle : String) (limit : Nat) : List ActorSearchRow :=
  (sortByB searchRowGE (searchActorRows db (likeNameMatch needle))).take limit

/-- The `for (const ftsQuery of ftsQueries)` loop: the first query whose
result list is non-empty wins. -/
def tryFts {α : Type} (f : String → List α) : List String → Option (List α)
  | [] => none
  | q :: qs =>
    let rs := f q
    if rs.isEmpty then tryFts f qs else some rs

/-- `searchActors(query, limit)`: normalize; empty input resolves to the
empty list; try the FTS query variants in order; fall back to the LIKE
search on the punctuation-stripped lowercased input. -/
def searchActors (db : DB) (ftsMatch : String → String → Bool) (query : String)
    (limit : Nat) : List ActorSearchRow :=
  let normalized := normalizeInput query
  if normalized = "" then []
  else
    match tryFts (fun fq => stmtSearchActors db ftsMatch fq limit) (toFtsQueries normalized) with
    | some rs => rs
    | none => stmtSearchActorsLike db (normalizeForLike query) limit

/-! ### Well-formedness of the round state

In the store built by the repository's ingestion scripts, actor ids and
movie ids live in disjoint namespaces (IMDB `nm…` versus `tt…` constants),
so a used-movie id is never an actor id of the relation and vice versa.
`WellFormedB` states exactly that about a round's used-sets. -/

/-- The actor ids occurring in the credit relation. -/
def actorIdsOf (db : DB) : List String := db.principals.map (fun p => p.nconst)

/-- The movie ids occurring in the credit relation. -/
def movieIdsOf (db : DB) : List String := db.principals.map (fun p => p.tconst)

/-- The used-sets respect the id namespaces of the store. -/
def WellFormedB (db : DB) (usedA usedM : List String) : Bool :=
  usedM.all (fun x => !(actorIdsOf db).contains x) &&
    usedA.all (fun x => !(movieIdsOf db).contains x)

/-- Boolean list inclusion (used-set growth). -/
def subsetB (xs ys : List String) : Bool := xs.all (fun x => ys.contains x)

/-! ### Basic lemmas -/

theorem contains_eq_mem (l : List String) (a : String) : l.contains a = true ↔ a ∈ l := by
  simp [List.contains_iff_exists_mem_beq, beq_iff_eq, eq_comm]

theorem mem_insertSorted {α : Type} (r : α → α → Bool) (x y : α) (l : List α) :
    y ∈ insertSorted r x l ↔ y = x ∨ y ∈ l := by
  induction l with
  | nil => simp [insertSorted]
  | cons a as ih =>
    simp only [insertSorted]
    by_cases h : r x a = true
    · simp [h]
    · simp only [if_neg h, List.mem_cons, ih]
      tauto

theorem mem_sortByB {α : Type} (r : α → α → Bool) (y : α) (l : List α) :
    y ∈ sortByB r l ↔ y ∈ l := by
  induction l with
  | nil => simp [sortByB]
  | cons a as ih => simp [sortByB, mem_insertSorted, ih]

theorem length_insertSorted {α : Type} (r : α → α → Bool) (x : α) (l : List α) :
    (insertSorted r x l).length = l.length + 1 := by
  induction l with
  | nil => simp [insertSorted]
  | cons a as ih =>
    simp only [insertSorted]
    by_cases h : r x a = true
    · simp [h]
    · simp [if_neg h, ih]

theorem length_sortByB {α : Type} (r : α → α → Bool) (l : List α) :
    (sortByB r l).length = l.length := by
  induction l with
  | nil => rfl
  | cons a as ih => simp [sortByB, length_insertSorted, ih]

theorem sortedByB_cons_of {α : Type} (r : α → α → Bool) (a : α) (l : List α)
    (hl : sortedByB r l = true) (ha : ∀ b, l.head? = some b → r a b = true) :
    sortedByB r (a :: l) = true := by
  cases l with
  | nil => rfl
  | cons b bs =>
    have : r a b = true := ha b rfl
    simp [sortedByB, this, hl]

theorem sortedByB_insertSorted {α : Type} (r : α → α → Bool)
    (htot : ∀ a b, r a b = true ∨ r b a = true) (x : α) (l : List α)
    (hl : sortedByB r l = true) : sortedByB r (insertSorted r x l) = true := by
  induction l with
  | nil => rfl
  | cons a as ih =>
    simp only [insertSorted]
    by_cases h : r x a = true
    · simp [sortedByB, h, hl]
    · have hax : r a x = true := by
        rcases htot x a with h' | h'
        · exact absurd h' h
        · exact h'
      have has : sortedByB r as = true := by
        cases as with
        | nil => rfl
        | cons b bs => simp only [sortedByB, Bool.and_eq_true] at hl; exact hl.2
      simp only [if_neg h]
      apply sortedByB_cons_of
      · exact ih has
      · intro b hb
        cases as with
        | nil =>
          simp [insertSorted] at hb
          simpa [hb] using hax
        | cons c cs =>
          simp only [insertSorted] at hb
          by_cases hxc : r x c = true
          · simp only [if_pos hxc, List.head?] at hb
            injection hb with hb
            simpa [hb] using hax
          · simp only [if_neg hxc, List.head?] at hb
            injection hb with hb
            have : r a c = true := by
              simp only [sortedByB, Bool.and_eq_true] at hl
              exact hl.1
            simpa [hb] using this

theorem sortedByB_sortByB {α : Type} (r : α → α → Bool)
    (htot : ∀ a b, r a b = true ∨ r b a = true) (l : List α) :
    sortedByB r (sortByB r l) = true := by
  induction l with
  | nil => rfl
  | cons a as ih => exact sortedByB_insertSorted r htot a _ ih

theorem sortedByB_take {α : Type} (r : α → α → Bool) (l : List α)
    (h : sortedByB r l = true) (n : Nat) : sortedByB r (l.take n) = true := by
  induction l generalizing n with
  | nil => simp [sortedByB]
  | cons a as ih =>
    cases n with
    | zero => rfl
    | succ m =>
      cases as with
      | nil => cases m <;> rfl
      | cons b bs =>
        simp only [sortedByB, Bool.and_eq_true] at h
        cases m with
        | zero => rfl
        | succ k =>
          have := ih h.2 (k + 1)
          simp only [List.take]
          apply sortedByB_cons_of
          · simpa using this
          · intro c hc
            simp only [List.take, List.head?] at hc
            injection hc with hc
            simpa [hc] using h.1

theorem getD_mem {α : Type} (l : List α) (i : Nat) (d : α) (h : i < l.length) :
    l.getD i d ∈ l := by
  induction l generalizing i with
  | nil => simp at h
  | cons a as ih =>
    cases i with
    | zero => simp [List.getD]
    | succ j =>
      simp only [List.getD] at ih ⊢
      right
      exact ih j (by simpa using h)

theorem pickFrom_mem {α : Type} (l : List α) (r : Nat) (c : α)
    (h : pickFrom l r = some c) : c ∈ l := by
  cases l with
  | nil => simp [pickFrom] at h
  | cons c0 rest =>
    simp only [pickFrom, Option.some.injEq] at h
    subst h
    apply getD_mem
    calc r % Nat.min (rest.length + 1) 3 < Nat.min (rest.length + 1) 3 :=
          Nat.mod_lt _ (by positivity)
      _ ≤ rest.length + 1 := Nat.min_le_left _ _
      _ = (c0 :: rest).length := by simp

/-! ### Query-row facts -/

theorem mem_computerPickActorRows {db : DB} {t : String} {maxOrd : Nat}
    {used : List String} {c : ActorCand}
    (h : c ∈ computerPickActorRows db t maxOrd used) :
    validActorInMovie db c.nconst t = true ∧ c.ordering ≤ maxOrd ∧
      used.contains c.nconst = false ∧ c.nconst ∈ actorIdsOf db := by
  simp only [computerPickActorRows, List.mem_map, List.mem_filter] at h
  obtain ⟨p, ⟨hp, hpred⟩, hc⟩ := h
  simp only [actorRowPred, Bool.and_eq_true, beq_iff_eq, decide_eq_true_eq,
    Bool.not_eq_true'] at hpred
  obtain ⟨⟨⟨⟨ht, hcat⟩, hord⟩, _⟩, hused⟩ := hpred
  subst hc
  refine ⟨?_, hord, hused, ?_⟩
  · simp only [validActorInMovie, stmtValidateActorInMovie, List.any_eq_true]
    exact ⟨p, hp, by simp [ht, hcat]⟩
  · simp only [actorIdsOf, List.mem_map]
    exact ⟨p, hp, rfl⟩

theorem mem_computerPickMovieRows {db : DB} {n : String} {cfg : Config}
    {used : List String} {c : MovieCand}
    (h : c ∈ computerPickMovieRows db n cfg used) :
    validActorInMovie db n c.tconst = true ∧ c.ordering ≤ cfg.maxOrdering ∧
      cfg.minYear ≤ c.startYear ∧ cfg.minVotes ≤ c.numVotes ∧
      used.contains c.tconst = false ∧ c.tconst ∈ movieIdsOf db := by
  simp only [computerPickMovieRows, List.mem_map, List.mem_filter] at h
  obtain ⟨p, ⟨hp, hpred⟩, hc⟩ := h
  simp only [movieRowPred, Bool.and_eq_true, beq_iff_eq, decide_eq_true_eq,
    Bool.not_eq_true'] at hpred
  obtain ⟨⟨⟨⟨⟨hn, hcat⟩, hord⟩, htitle⟩, hvotes⟩, hused⟩ := hpred
  subst hc
  refine ⟨?_, hord, ?_, hvotes, hused, ?_⟩
  · simp only [validActorInMovie, stmtValidateActorInMovie, List.any_eq_true]
    exact ⟨p, hp, by simp [hn, hcat]⟩
  · revert htitle
    cases hlk : lookupTitle db p.tconst with
    | none => simp
    | some tt =>
      simp only [Bool.and_eq_true, decide_eq_true_eq, yearOf, hlk]
      exact fun hy => hy.2
  · simp only [movieIdsOf, List.mem_map]
    exact ⟨p, hp, rfl⟩

theorem mem_pickActorCandidates {db : DB} {cfg : Config} {t : String}
    {used : List String} {c : ActorCand}
    (h : c ∈ pickActorCandidates db cfg t used) :
    c ∈ computerPickActorRows db t cfg.maxOrdering used := by
  simp only [pickActorCandidates] at h
  exact (mem_sortByB _ _ _).1 (List.mem_of_mem_take h)

theorem mem_pickMovieCandidates {db : DB} {cfg : Config} {n : String}
    {used : List String} {c : MovieCand}
    (h : c ∈ pickMovieCandidates db cfg n used) :
    c ∈ computerPickMovieRows db n cfg used := by
  simp only [pickMovieCandidates] at h
  exact (mem_sortByB _ _ _).1 (List.mem_of_mem_take h)

theorem computerFindProofActor_mem {db : DB} {cfg : Config} {t : String}
    {used : List String} {c : ActorCand}
    (h : computerFindProofActor db cfg t used = some c) :
    c ∈ computerPickActorRows db t cfg.maxOrdering used := by
  simp only [computerFindProofActor] at h
  exact List.mem_of_mem_head? h

theorem computerFindProofMovie_mem {db : DB} {cfg : Config} {n : String}
    {used : List String} {c : MovieCand}
    (h : computerFindProofMovie db cfg n used = some c) :
    c ∈ computerPickMovieRows db n cfg used := by
  simp only [computerFindProofMovie] at h
  exact List.mem_of_mem_head? h

/-- An unrestrictedly connected actor id occurs among the relation's actor
ids. -/
theorem valid_actor_mem_actorIds {db : DB} {a t : String}
    (h : validActorInMovie db a t = true) : a ∈ actorIdsOf db := by
  simp only [validActorInMovie, stmtValidateActorInMovie, List.any_eq_true,
    Bool.and_eq_true, beq_iff_eq] at h
  obtain ⟨p, hp, ⟨_, hn⟩, _⟩ := h
  simp only [actorIdsOf, List.mem_map]
  exact ⟨p, hp, hn⟩

/-- An unrestrictedly connected movie id occurs among the relation's movie
ids. -/
theorem valid_movie_mem_movieIds {db : DB} {n m : String}
    (h : validActorInMovie db n m = true) : m ∈ movieIdsOf db := by
  simp only [validActorInMovie, stmtValidateActorInMovie, List.any_eq_true,
    Bool.and_eq_true, beq_iff_eq] at h
  obtain ⟨p, hp, ⟨ht, _⟩, _⟩ := h
  simp only [movieIdsOf, List.mem_map]
  exact ⟨p, hp, ht⟩

theorem contains_eq_false (l : List String) (a : String) : l.contains a = false ↔ a ∉ l := by
  rw [← Bool.not_eq_true, not_iff_not]
  exact contains_eq_mem l a

/-- A well-formed used-movie set cannot contain an actor id of the store. -/
theorem wf_notMem_usedMovies {db : DB} {usedA usedM : List String} {a : String}
    (hwf : WellFormedB db usedA usedM = true) (ha : a ∈ actorIdsOf db) :
    usedM.contains a = false := by
  simp only [WellFormedB, Bool.and_eq_true, List.all_eq_true, Bool.not_eq_true'] at hwf
  rw [contains_eq_false]
  intro hmem
  exact absurd ha ((contains_eq_false _ _).1 (hwf.1 a hmem))

/-- A well-formed used-actor set cannot contain a movie id of the store. -/
theorem wf_notMem_usedActors {db : DB} {usedA usedM : List String} {m : String}
    (hwf : WellFormedB db usedA usedM = true) (hm : m ∈ movieIdsOf db) :
    usedA.contains m = false := by
  simp only [WellFormedB, Bool.and_eq_true, List.all_eq_true, Bool.not_eq_true'] at hwf
  rw [contains_eq_false]
  intro hmem
  exact absurd hm ((contains_eq_false _ _).1 (hwf.2 m hmem))

/-! ### Facts about the human-move loop -/

theorem findFirstConnectedActor_some {db : DB} {t a : String} {l : List String}
    (h : findFirstConnectedActor db t l = some a) :
    validActorInMovie db a t = true ∧ a ∈ l := by
  induction l with
  | nil => simp [findFirstConnectedActor] at h
  | cons x xs ih =>
    simp only [findFirstConnectedActor] at h
    by_cases hx : validActorInMovie db x t = true
    · rw [if_pos hx] at h
      injection h with h
      subst h
      exact ⟨hx, List.mem_cons_self x xs⟩
    · rw [if_neg hx] at h
      obtain ⟨hv, hm⟩ := ih h
      exact ⟨hv, List.mem_cons_of_mem x hm⟩

theorem findFirstConnectedMovie_some {db : DB} {n m : String} {l : List String}
    (h : findFirstConnectedMovie db n l = some m) :
    validActorInMovie db n m = true ∧ m ∈ l := by
  induction l with
  | nil => simp [findFirstConnectedMovie] at h
  | cons x xs ih =>
    simp only [findFirstConnectedMovie] at h
    by_cases hx : validActorInMovie db n x = true
    · rw [if_pos hx] at h
      injection h with h
      subst h
      exact ⟨hx, List.mem_cons_self x xs⟩
    · rw [if_neg hx] at h
      obtain ⟨hv, hm⟩ := ih h
      exact ⟨hv, List.mem_cons_of_mem x hm⟩

theorem findFirstConnectedActor_none_of_all {db : DB} {t : String} {l : List String}
    (h : l.all (fun a => !(validActorInMovie db a t)) = true) :
    findFirstConnectedActor db t l = none := by
  induction l with
  | nil => rfl
  | cons x xs ih =>
    simp only [List.all_cons, Bool.and_eq_true, Bool.not_eq_true'] at h
    simp only [findFirstConnectedActor, h.1]
    exact ih h.2

theorem findFirstConnectedMovie_none_of_all {db : DB} {n : String} {l : List String}
    (h : l.all (fun m => !(validActorInMovie db n m)) = true) :
    findFirstConnectedMovie db n l = none := by
  induction l with
  | nil => rfl
  | cons x xs ih =>
    simp only [List.all_cons, Bool.and_eq_true, Bool.not_eq_true'] at h
    simp only [findFirstConnectedMovie, h.1]
    exact ih h.2

/-- In a playing state on the human's turn with a movie current item and
non-empty normalized input, `humanMove` is `_humanPicksActor` on the
resolver's output. -/
theorem humanMove_eq_picksActor {db : DB} {cfg : Config} {sa sm : String → List String}
    {g : Game} {input t : String}
    (hs : g.gstate = GState.playing) (hp : g.currentPlayer = some Player.human)
    (hn : ¬ normalizeInput input = "")
    (ht : g.currentItemType = some ItemType.movie) (hi : g.currentItemId = some t) :
    humanMove db cfg sa sm g input = humanPicksActor db g t (sa (normalizeInput input)) := by
  simp [humanMove, hs, hp, hn, ht, hi]

/-- The actor-direction analogue: with an actor current item the move is
`_humanPicksMovie` on the resolver's output. -/
theorem humanMove_eq_picksMovie {db : DB} {cfg : Config} {sa sm : String → List String}
    {g : Game} {input n : String}
    (hs : g.gstate = GState.playing) (hp : g.currentPlayer = some Player.human)
    (hn : ¬ normalizeInput input = "")
    (ht : g.currentItemType = some ItemType.actor) (hi : g.currentItemId = some n) :
    humanMove db cfg sa sm g input = humanPicksMovie db g n (sm (normalizeInput input)) := by
  simp [humanMove, hs, hp, hn, ht, hi]

/-- Inversion of a valid `_humanPicksActor` outcome. -/
theorem humanPicksActor_valid {db : DB} {g : Game} {t : String} {actors : List String}
    {g' : Game} {id : String}
    (h : humanPicksActor db g t actors = (g', .valid id)) :
    findFirstConnectedActor db t actors = some id ∧
      g.usedActors.contains id = false ∧ g' = applyHumanActor g id := by
  cases actors with
  | nil => simp [humanPicksActor] at h
  | cons a0 rest =>
    cases hf : findFirstConnectedActor db t (a0 :: rest) with
    | none => simp [humanPicksActor, hf] at h
    | some a =>
      simp only [humanPicksActor, hf] at h
      by_cases hu : g.usedActors.contains a = true
      · rw [if_pos hu] at h
        simp at h
      · rw [if_neg hu] at h
        simp only [Prod.mk.injEq, MoveOutcome.valid.injEq] at h
        obtain ⟨hg, hid⟩ := h
        subst hid
        exact ⟨rfl, by simpa using hu, hg.symm⟩

/-- Inversion of a valid `_humanPicksMovie` outcome. -/
theorem humanPicksMovie_valid {db : DB} {g : Game} {n : String} {movies : List String}
    {g' : Game} {id : String}
    (h : humanPicksMovie db g n movies = (g', .valid id)) :
    findFirstConnectedMovie db n movies = some id ∧
      g.usedMovies.contains id = false ∧ g' = applyHumanMovie g id := by
  cases movies with
  | nil => simp [humanPicksMovie] at h
  | cons m0 rest =>
    cases hf : findFirstConnectedMovie db n (m0 :: rest) with
    | none => simp [humanPicksMovie, hf] at h
    | some m =>
      simp only [humanPicksMovie, hf] at h
      by_cases hu : g.usedMovies.contains m = true
      · rw [if_pos hu] at h
        simp at h
      · rw [if_neg hu] at h
        simp only [Prod.mk.injEq, MoveOutcome.valid.injEq] at h
        obtain ⟨hg, hid⟩ := h
        subst hid
        exact ⟨rfl, by simpa using hu, hg.symm⟩

/-! ### Unchanged-state and growth lemmas -/

/-- The outcomes the round narrative surfaces without consuming the turn. -/
def isRejectedOutcome : MoveOutcome → Bool
  | .notFound => true
  | .notConnected _ => true
  | .alreadyUsed _ => true
  | _ => false

theorem humanPicksActor_rejected {db : DB} {g : Game} {t : String} {actors : List String}
    {g' : Game} {o : MoveOutcome}
    (h : humanPicksActor db g t actors = (g', o)) (ho : isRejectedOutcome o = true) :
    g' = g := by
  cases actors with
  | nil =>
    simp only [humanPicksActor, Prod.mk.injEq] at h
    exact h.1.symm
  | cons a0 rest =>
    cases hf : findFirstConnectedActor db t (a0 :: rest) with
    | none =>
      simp only [humanPicksActor, hf, Prod.mk.injEq] at h
      exact h.1.symm
    | some a =>
      simp only [humanPicksActor, hf] at h
      by_cases hu : g.usedActors.contains a = true
      · rw [if_pos hu] at h
        simp only [Prod.mk.injEq] at h
        exact h.1.symm
      · rw [if_neg hu] at h
        simp only [Prod.mk.injEq] at h
        rw [← h.2] at ho
        simp [isRejectedOutcome] at ho

theorem humanPicksMovie_rejected {db : DB} {g : Game} {n : String} {movies : List String}
    {g' : Game} {o : MoveOutcome}
    (h : humanPicksMovie db g n movies = (g', o)) (ho : isRejectedOutcome o = true) :
    g' = g := by
  cases movies with
  | nil =>
    simp only [humanPicksMovie, Prod.mk.injEq] at h
    exact h.1.symm
  | cons m0 rest =>
    cases hf : findFirstConnectedMovie db n (m0 :: rest) with
    | none =>
      simp only [humanPicksMovie, hf, Prod.mk.injEq] at h
      exact h.1.symm
    | some m =>
      simp only [humanPicksMovie, hf] at h
      by_cases hu : g.usedMovies.contains m = true
      · rw [if_pos hu] at h
        simp only [Prod.mk.injEq] at h
        exact h.1.symm
      · rw [if_neg hu] at h
        simp only [Prod.mk.injEq] at h
        rw [← h.2] at ho
        simp [isRejectedOutcome] at ho

/-- Every used-set either stays or gains the accepted id under a human move. -/
theorem humanMove_used_sets {db : DB} {cfg : Config} {sa sm : String → List String}
    {g : Game} {input : String} {g' : Game} {o : MoveOutcome}
    (h : humanMove db cfg sa sm g input = (g', o)) :
    (g'.usedActors = g.usedActors ∧ g'.usedMovies = g.usedMovies) ∨
      (∃ a, g'.usedActors = a :: g.usedActors ∧ g'.usedMovies = g.usedMovies) ∨
      (∃ m, g'.usedActors = g.usedActors ∧ g'.usedMovies = m :: g.usedMovies) := by
  unfold humanMove at h
  by_cases hs : g.gstate ≠ GState.playing
  · rw [if_pos hs] at h
    simp only [Prod.mk.injEq] at h
    left; rw [← h.1]; exact ⟨rfl, rfl⟩
  · rw [if_neg hs] at h
    by_cases hp : g.currentPlayer ≠ some Player.human
    · rw [if_pos hp] at h
      simp only [Prod.mk.injEq] at h
      left; rw [← h.1]; exact ⟨rfl, rfl⟩
    · rw [if_neg hp] at h
      simp only at h
      by_cases hn : normalizeInput input = ""
      · rw [if_pos hn] at h
        simp only [Prod.mk.injEq] at h
        left; rw [← h.1]; exact ⟨rfl, rfl⟩
      · rw [if_neg hn] at h
        have pickA : ∀ t actors, humanPicksActor db g t actors = (g', o) →
            (g'.usedActors = g.usedActors ∧ g'.usedMovies = g.usedMovies) ∨
              (∃ a, g'.usedActors = a :: g.usedActors ∧ g'.usedMovies = g.usedMovies) ∨
              (∃ m, g'.usedActors = g.usedActors ∧ g'.usedMovies = m :: g.usedMovies) := by
          intro t actors hpa
          cases actors with
          | nil =>
            simp only [humanPicksActor, Prod.mk.injEq] at hpa
            left; rw [← hpa.1]; exact ⟨rfl, rfl⟩
          | cons a0 rest =>
            cases hf : findFirstConnectedActor db t (a0 :: rest) with
            | none =>
              simp only [humanPicksActor, hf, Prod.mk.injEq] at hpa
              left; rw [← hpa.1]; exact ⟨rfl, rfl⟩
            | some a =>
              simp only [humanPicksActor, hf] at hpa
              by_cases hu : g.usedActors.contains a = true
              · rw [if_pos hu] at hpa
                simp only [Prod.mk.injEq] at hpa
                left; rw [← hpa.1]; exact ⟨rfl, rfl⟩
              · rw [if_neg hu] at hpa
                simp only [Prod.mk.injEq] at hpa
                right; left
                exact ⟨a, by rw [← hpa.1]; exact ⟨rfl, rfl⟩⟩
        have pickM : ∀ n movies, humanPicksMovie db g n movies = (g', o) →
            (g'.usedActors = g.usedActors ∧ g'.usedMovies = g.usedMovies) ∨
              (∃ a, g'.usedActors = a :: g.usedActors ∧ g'.usedMovies = g.usedMovies) ∨
              (∃ m, g'.usedActors = g.usedActors ∧ g'.usedMovies = m :: g.usedMovies) := by
          intro n movies hpm
          cases movies with
          | nil =>
            simp only [humanPicksMovie, Prod.mk.injEq] at hpm
            left; rw [← hpm.1]; exact ⟨rfl, rfl⟩
          | cons m0 rest =>
            cases hf : findFirstConnectedMovie db n (m0 :: rest) with
            | none =>
              simp only [humanPicksMovie, hf, Prod.mk.injEq] at hpm
              left; rw [← hpm.1]; exact ⟨rfl, rfl⟩
            | some m =>
              simp only [humanPicksMovie, hf] at hpm
              by_cases hu : g.usedMovies.contains m = true
              · rw [if_pos hu] at hpm
                simp only [Prod.mk.injEq] at hpm
                left; rw [← hpm.1]; exact ⟨rfl, rfl⟩
              · rw [if_neg hu] at hpm
                simp only [Prod.mk.injEq] at hpm
                right; right
                exact ⟨m, by rw [← hpm.1]; exact ⟨rfl, rfl⟩⟩
        cases hct : g.currentItemType with
        | none =>
          rw [hct] at h
          simp only at h
          cases hci : g.currentItemId with
          | none =>
            rw [hci] at h
            simp only [Prod.mk.injEq] at h
            left; rw [← h.1]; exact ⟨rfl, rfl⟩
          | some n =>
            rw [hci] at h
            exact pickM n _ h
        | some ty =>
          cases ty with
          | movie =>
            rw [hct] at h
            simp only at h
            cases hci : g.currentItemId with
            | none =>
              rw [hci] at h
              simp only [Prod.mk.injEq] at h
              left; rw [← h.1]; exact ⟨rfl, rfl⟩
            | some t =>
              rw [hci] at h
              exact pickA t _ h
          | actor =>
            rw [hct] at h
            simp only at h
            cases hci : g.currentItemId with
            | none =>
              rw [hci] at h
              simp only [Prod.mk.injEq] at h
              left; rw [← h.1]; exact ⟨rfl, rfl⟩
            | some n =>
              rw [hci] at h
              exact pickM n _ h

theorem subsetB_refl (xs : List String) : subsetB xs xs = true := by
  simp only [subsetB, List.all_eq_true]
  intro x hx
  exact (contains_eq_mem _ _).2 hx

theorem subsetB_cons (a : String) (xs : List String) : subsetB xs (a :: xs) = true := by
  simp only [subsetB, List.all_eq_true]
  intro x hx
  exact (contains_eq_mem _ _).2 (List.mem_cons_of_mem a hx)

/-- Inversion of a valid `humanMove`: either the movie direction accepted a
connected, unused actor, or the actor direction accepted a connected,
unused movie. -/
theorem humanMove_valid {db : DB} {cfg : Config} {sa sm : String → List String}
    {g : Game} {input : String} {g' : Game} {id : String}
    (h : humanMove db cfg sa sm g input = (g', .valid id)) :
    (∃ t, g.currentItemType = some ItemType.movie ∧ g.currentItemId = some t ∧
        validActorInMovie db id t = true ∧ g.usedActors.contains id = false ∧
        g' = applyHumanActor g id) ∨
      (∃ n, g.currentItemType ≠ some ItemType.movie ∧ g.currentItemId = some n ∧
        validActorInMovie db n id = true ∧ g.usedMovies.contains id = false ∧
        g' = applyHumanMovie g id) := by
  unfold humanMove at h
  by_cases hs : g.gstate ≠ GState.playing
  · rw [if_pos hs] at h; simp at h
  · rw [if_neg hs] at h
    by_cases hp : g.currentPlayer ≠ some Player.human
    · rw [if_pos hp] at h; simp at h
    · rw [if_neg hp] at h
      simp only at h
      by_cases hn : normalizeInput input = ""
      · rw [if_pos hn] at h; simp at h
      · rw [if_neg hn] at h
        cases hct : g.currentItemType with
        | none =>
          rw [hct] at h
          simp only at h
          cases hci : g.currentItemId with
          | none => rw [hci] at h; simp at h
          | some n =>
            rw [hci] at h
            obtain ⟨hf, hu, hg⟩ := humanPicksMovie_valid h
            exact Or.inr ⟨n, by simp [hct], rfl, (findFirstConnectedMovie_some hf).1, hu, hg⟩
        | some ty =>
          cases ty with
          | movie =>
            rw [hct] at h
            simp only at h
            cases hci : g.currentItemId with
            | none => rw [hci] at h; simp at h
            | some t =>
              rw [hci] at h
              obtain ⟨hf, hu, hg⟩ := humanPicksActor_valid h
              exact Or.inl ⟨t, rfl, rfl, (findFirstConnectedActor_some hf).1, hu, hg⟩
          | actor =>
            rw [hct] at h
            simp only at h
            cases hci : g.currentItemId with
            | none => rw [hci] at h; simp at h
            | some n =>
              rw [hci] at h
              obtain ⟨hf, hu, hg⟩ := humanPicksMovie_valid h
              exact Or.inr ⟨n, by simp [hct], rfl, (findFirstConnectedMovie_some hf).1, hu, hg⟩

/-- `_endRound` leaves the used-sets untouched. -/
theorem endRound_used_sets (g : Game) (w : Player) :
    (endRound g w).usedActors = g.usedActors ∧ (endRound g w).usedMovies = g.usedMovies := by
  unfold endRound
  by_cases h : g.roundsToWin ≤ scoreOf (bump g.scores w) w
  · rw [if_pos h]; exact ⟨rfl, rfl⟩
  · rw [if_neg h]; exact ⟨rfl, rfl⟩

/-- Inversion of a `moved` `_computerPicksActor`. -/
theorem computerPicksActor_moved {db : DB} {cfg : Config} {r : Nat} {g : Game}
    {t : String} {g' : Game} {id : String}
    (h : computerPicksActor db cfg r g t = (g', .moved id)) :
    ∃ pick, pick ∈ computerPickActorRows db t cfg.maxOrdering g.usedActors ∧
      id = pick.nconst ∧ g'.usedActors = id :: g.usedActors ∧
      g'.usedMovies = g.usedMovies := by
  cases hf : pickFrom (pickActorCandidates db cfg t g.usedActors) r with
  | none => simp [computerPicksActor, hf] at h
  | some pick =>
    simp only [computerPicksActor, hf, Prod.mk.injEq, CompOutcome.moved.injEq] at h
    obtain ⟨hg, hid⟩ := h
    subst hid
    exact ⟨pick, mem_pickActorCandidates (pickFrom_mem _ _ _ hf), rfl,
      by rw [← hg], by rw [← hg]⟩

/-- Inversion of a `moved` `_computerPicksMovie`. -/
theorem computerPicksMovie_moved {db : DB} {cfg : Config} {r : Nat} {g : Game}
    {n : String} {g' : Game} {id : String}
    (h : computerPicksMovie db cfg r g n = (g', .moved id)) :
    ∃ pick, pick ∈ computerPickMovieRows db n cfg g.usedMovies ∧
      id = pick.tconst ∧ g'.usedMovies = id :: g.usedMovies ∧
      g'.usedActors = g.usedActors := by
  cases hf : pickFrom (pickMovieCandidates db cfg n g.usedMovies) r with
  | none => simp [computerPicksMovie, hf] at h
  | some pick =>
    simp only [computerPicksMovie, hf, Prod.mk.injEq, CompOutcome.moved.injEq] at h
    obtain ⟨hg, hid⟩ := h
    subst hid
    exact ⟨pick, mem_pickMovieCandidates (pickFrom_mem _ _ _ hf), rfl,
      by rw [← hg], by rw [← hg]⟩

/-- Inversion of a `moved` computer move. -/
theorem computerMove_moved {db : DB} {cfg : Config} {r : Nat} {g : Game}
    {g' : Game} {id : String}
    (h : computerMove db cfg r g = (g', .moved id)) :
    (∃ t pick, g.currentItemId = some t ∧
        pick ∈ computerPickActorRows db t cfg.maxOrdering g.usedActors ∧ id = pick.nconst ∧
        g'.usedActors = id :: g.usedActors ∧ g'.usedMovies = g.usedMovies) ∨
      (∃ n pick, g.currentItemId = some n ∧
        pick ∈ computerPickMovieRows db n cfg g.usedMovies ∧ id = pick.tconst ∧
        g'.usedMovies = id :: g.usedMovies ∧ g'.usedActors = g.usedActors) := by
  unfold computerMove at h
  by_cases hs : g.gstate ≠ GState.playing
  · rw [if_pos hs] at h; simp at h
  · rw [if_neg hs] at h
    by_cases hp : g.currentPlayer ≠ some Player.computer
    · rw [if_pos hp] at h; simp at h
    · rw [if_neg hp] at h
      cases hct : g.currentItemType with
      | none =>
        rw [hct] at h
        simp only at h
        cases hci : g.currentItemId with
        | none => rw [hci] at h; simp at h
        | some n =>
          rw [hci] at h
          obtain ⟨pick, hmem, hid, hm, ha⟩ := computerPicksMovie_moved h
          exact Or.inr ⟨n, pick, rfl, hmem, hid, hm, ha⟩
      | some ty =>
        cases ty with
        | movie =>
          rw [hct] at h
          simp only at h
          cases hci : g.currentItemId with
          | none => rw [hci] at h; simp at h
          | some t =>
            rw [hci] at h
            obtain ⟨pick, hmem, hid, ha, hm⟩ := computerPicksActor_moved h
            exact Or.inl ⟨t, pick, rfl, hmem, hid, ha, hm⟩
        | actor =>
          rw [hct] at h
          simp only at h
          cases hci : g.currentItemId with
          | none => rw [hci] at h; simp at h
          | some n =>
            rw [hci] at h
            obtain ⟨pick, hmem, hid, hm, ha⟩ := computerPicksMovie_moved h
            exact Or.inr ⟨n, pick, rfl, hmem, hid, hm, ha⟩

/-- Any computer move leaves each used-set equal or grown by the pick. -/
theorem computerMove_used_sets {db : DB} {cfg : Config} {r : Nat} {g : Game}
    {g' : Game} {o : CompOutcome}
    (h : computerMove db cfg r g = (g', o)) :
    (g'.usedActors = g.usedActors ∧ g'.usedMovies = g.usedMovies) ∨
      (∃ a, g'.usedActors = a :: g.usedActors ∧ g'.usedMovies = g.usedMovies) ∨
      (∃ m, g'.usedActors = g.usedActors ∧ g'.usedMovies = m :: g.usedMovies) := by
  unfold computerMove at h
  by_cases hs : g.gstate ≠ GState.playing
  · rw [if_pos hs] at h
    simp only [Prod.mk.injEq] at h
    left; rw [← h.1]; exact ⟨rfl, rfl⟩
  · rw [if_neg hs] at h
    by_cases hp : g.currentPlayer ≠ some Player.computer
    · rw [if_pos hp] at h
      simp only [Prod.mk.injEq] at h
      left; rw [← h.1]; exact ⟨rfl, rfl⟩
    · rw [if_neg hp] at h
      have pickA : ∀ t, computerPicksActor db cfg r g t = (g', o) →
          (g'.usedActors = g.usedActors ∧ g'.usedMovies = g.usedMovies) ∨
            (∃ a, g'.usedActors = a :: g.usedActors ∧ g'.usedMovies = g.usedMovies) ∨
            (∃ m, g'.usedActors = g.usedActors ∧ g'.usedMovies = m :: g.usedMovies) := by
        intro t hpa
        cases hf : pickFrom (pickActorCandidates db cfg t g.usedActors) r with
        | none =>
          simp only [computerPicksActor, hf, Prod.mk.injEq] at hpa
          left
          rw [← hpa.1]
          exact endRound_used_sets g .human
        | some pick =>
          simp only [computerPicksActor, hf, Prod.mk.injEq] at hpa
          right; left
          exact ⟨pick.nconst, by rw [← hpa.1]; exact ⟨rfl, rfl⟩⟩
      have pickM : ∀ n, computerPicksMovie db cfg r g n = (g', o) →
          (g'.usedActors = g.usedActors ∧ g'.usedMovies = g.usedMovies) ∨
            (∃ a, g'.usedActors = a :: g.usedActors ∧ g'.usedMovies = g.usedMovies) ∨
            (∃ m, g'.usedActors = g.usedActors ∧ g'.usedMovies = m :: g.usedMovies) := by
        intro n hpm
        cases hf : pickFrom (pickMovieCandidates db cfg n g.usedMovies) r with
        | none =>
          simp only [computerPicksMovie, hf, Prod.mk.injEq] at hpm
          left
          rw [← hpm.1]
          exact endRound_used_sets g .human
        | some pick =>
          simp only [computerPicksMovie, hf, Prod.mk.injEq] at hpm
          right; right
          exact ⟨pick.tconst, by rw [← hpm.1]; exact ⟨rfl, rfl⟩⟩
      cases hct : g.currentItemType with
      | none =>
        rw [hct] at h
        simp only at h
        cases hci : g.currentItemId with
        | none =>
          rw [hci] at h
          simp only [Prod.mk.injEq] at h
          left; rw [← h.1]; exact ⟨rfl, rfl⟩
        | some n => rw [hci] at h; exact pickM n h
      | some ty =>
        cases ty with
        | movie =>
          rw [hct] at h
          simp only at h
          cases hci : g.currentItemId with
          | none =>
            rw [hci] at h
            simp only [Prod.mk.injEq] at h
            left; rw [← h.1]; exact ⟨rfl, rfl⟩
          | some t => rw [hci] at h; exact pickA t h
        | actor =>
          rw [hct] at h
          simp only at h
          cases hci : g.currentItemId with
          | none =>
            rw [hci] at h
            simp only [Prod.mk.injEq] at h
            left; rw [← h.1]; exact ⟨rfl, rfl⟩
          | some n => rw [hci] at h; exact pickM n h

/-- A challenge leaves the used-sets untouched. -/
theorem humanChallenge_used_sets {db : DB} {cfg : Config} {g : Game}
    {g' : Game} {o : ChallengeOutcome}
    (h : humanChallenge db cfg g = (g', o)) :
    g'.usedActors = g.usedActors ∧ g'.usedMovies = g.usedMovies := by
  unfold humanChallenge at h
  by_cases hs : g.gstate ≠ GState.playing
  · rw [if_pos hs] at h
    simp only [Prod.mk.injEq] at h
    rw [← h.1]; exact ⟨rfl, rfl⟩
  · rw [if_neg hs] at h
    by_cases hp : g.currentPlayer ≠ some Player.human
    · rw [if_pos hp] at h
      simp only [Prod.mk.injEq] at h
      rw [← h.1]; exact ⟨rfl, rfl⟩
    · rw [if_neg hp] at h
      simp only at h
      cases hct : g.currentItemType with
      | none =>
        cases hci : g.currentItemId with
        | none =>
          simp only [hct, hci, Prod.mk.injEq] at h
          rw [← h.1]; exact ⟨rfl, rfl⟩
        | some n =>
          cases hpf : computerFindProofMovie db cfg n g.usedMovies with
          | none =>
            simp only [hct, hci, hpf, Prod.mk.injEq] at h
            rw [← h.1]
            exact endRound_used_sets _ _
          | some c =>
            simp only [hct, hci, hpf, Prod.mk.injEq] at h
            rw [← h.1]
            exact endRound_used_sets _ _
      | some ty =>
        cases ty with
        | movie =>
          cases hci : g.currentItemId with
          | none =>
            simp only [hct, hci, Prod.mk.injEq] at h
            rw [← h.1]; exact ⟨rfl, rfl⟩
          | some t =>
            cases hpf : computerFindProofActor db cfg t g.usedActors with
            | none =>
              simp only [hct, hci, hpf, Prod.mk.injEq] at h
              rw [← h.1]
              exact endRound_used_sets _ _
            | some c =>
              simp only [hct, hci, hpf, Prod.mk.injEq] at h
              rw [← h.1]
              exact endRound_used_sets _ _
        | actor =>
          cases hci : g.currentItemId with
          | none =>
            simp only [hct, hci, Prod.mk.injEq] at h
            rw [← h.1]; exact ⟨rfl, rfl⟩
          | some n =>
            cases hpf : computerFindProofMovie db cfg n g.usedMovies with
            | none =>
              simp only [hct, hci, hpf, Prod.mk.injEq] at h
              rw [← h.1]
              exact endRound_used_sets _ _
            | some c =>
              simp only [hct, hci, hpf, Prod.mk.injEq] at h
              rw [← h.1]
              exact endRound_used_sets _ _

/-- In a playing state on the human's turn facing a movie, the challenge is
decided by the actor proof search. -/
theorem humanChallenge_movie_eq {db : DB} {cfg : Config} {g : Game} {t : String}
    (hs : g.gstate = GState.playing) (hp : g.currentPlayer = some Player.human)
    (ht : g.currentItemType = some ItemType.movie) (hi : g.currentItemId = some t) :
    humanChallenge db cfg g =
      (match computerFindProofActor db cfg t g.usedActors with
       | some c =>
         (endRound { g with gstate := GState.challengePending } Player.computer,
          ChallengeOutcome.computerWins c.nconst)
       | none =>
         (endRound { g with gstate := GState.challengePending } Player.human,
          ChallengeOutcome.humanWins)) := by
  simp [humanChallenge, hs, hp, ht, hi]

/-- In a playing state on the human's turn facing an actor, the challenge is
decided by the movie proof search. -/
theorem humanChallenge_actor_eq {db : DB} {cfg : Config} {g : Game} {n : String}
    (hs : g.gstate = GState.playing) (hp : g.currentPlayer = some Player.human)
    (ht : g.currentItemType = some ItemType.actor) (hi : g.currentItemId = some n) :
    humanChallenge db cfg g =
      (match computerFindProofMovie db cfg n g.usedMovies with
       | some c =>
         (endRound { g with gstate := GState.challengePending } Player.computer,
          ChallengeOutcome.computerWins c.tconst)
       | none =>
         (endRound { g with gstate := GState.challengePending } Player.human,
          ChallengeOutcome.humanWins)) := by
  simp [humanChallenge, hs, hp, ht, hi]

/-- `_endRound` adds one to the winner's score and leaves the other score. -/
theorem endRound_scores (g : Game) (w : Player) :
    scoreOf (endRound g w).scores w = scoreOf g.scores w + 1 ∧
      scoreOf (endRound g w).scores w.other = scoreOf g.scores w.other := by
  unfold endRound
  by_cases h : g.roundsToWin ≤ scoreOf (bump g.scores w) w
  · rw [if_pos h]
    cases w <;> exact ⟨rfl, rfl⟩
  · rw [if_neg h]
    cases w <;> exact ⟨rfl, rfl⟩

/-! ### Resolver pipeline lemmas and the spec-modelled query orders -/

/-- Modelled from the spec: the claimed variant order of the resolver — the
normalized phrase; then the phrase with punctuation stripped; then, for
multi-word inputs, the conjunction of the tokens of length ≥ 3. -/
def toFtsQueriesClaimed (input : String) : List String :=
  let base := [phraseQuery input]
  let base := if stripPunct input ≠ input then base ++ [phraseQuery (stripPunct input)] else base
  let ws := (wordsOf input).filter (fun w => decide (3 ≤ w.length))
  if 1 < ws.length then base ++ [" AND ".intercalate (ws.map phraseQuery)] else base

/-- Modelled from the spec (amended wording): for each phrase variant in
order — the normalized input, then its punctuation-stripped form when that
differs — the phrase query followed by that variant's token query, with
duplicates dropped in order of first appearance. -/
def toFtsQueriesAmended (input : String) : List String :=
  ((variationsOf input).flatMap variantQueries).foldl addQuery []

theorem foldl_addQuery_flatMap {β : Type} (f : β → List String) (vs : List β)
    (acc : List String) :
    (vs.flatMap f).foldl addQuery acc = vs.foldl (fun a v => (f v).foldl addQuery a) acc := by
  induction vs generalizing acc with
  | nil => rfl
  | cons v rest ih => simp [List.flatMap_cons, List.foldl_append, ih]

/-- The interleaved per-variation order of the source is the grouped
flat-map order of the amended description. -/
theorem toFtsQueries_eq_amended (input : String) :
    toFtsQueries input = toFtsQueriesAmended input := by
  unfold toFtsQueries toFtsQueriesAmended
  rw [foldl_addQuery_flatMap]

/-- The first-match loop over FTS queries is the `find?` of a query with a
non-empty result list. -/
theorem tryFts_eq_find {α : Type} (f : String → List α) (qs : List String) :
    tryFts f qs = ((qs.find? (fun q => !(f q).isEmpty)).map f) := by
  induction qs with
  | nil => rfl
  | cons q rest ih =>
    by_cases h : (f q).isEmpty = true
    · rw [List.find?_cons_of_neg _ (by simp [h])]
      simpa [tryFts, h] using ih
    · have h' : (f q).isEmpty = false := by simpa using h
      rw [List.find?_cons_of_pos _ (by simp [h'])]
      simp [tryFts, h']

theorem sortedByB_stmtSearchActors (db : DB) (ftsMatch : String → String → Bool)
    (q : String) (limit : Nat) :
    sortedByB searchRowGE (stmtSearchActors db ftsMatch q limit) = true := by
  unfold stmtSearchActors
  apply sortedByB_take
  apply sortedByB_sortByB
  intro a b
  simp only [searchRowGE, decide_eq_true_eq]
  exact Nat.le_total b.movieCount a.movieCount

theorem sortedByB_stmtSearchActorsLike (db : DB) (needle : String) (limit : Nat) :
    sortedByB searchRowGE (stmtSearchActorsLike db needle limit) = true := by
  unfold stmtSearchActorsLike
  apply sortedByB_take
  apply sortedByB_sortByB
  intro a b
  simp only [searchRowGE, decide_eq_true_eq]
  exact Nat.le_total b.movieCount a.movieCount

/-- `searchActors` always returns a list ranked by the movie-count proxy
descending. -/
theorem sortedByB_searchActors (db : DB) (ftsMatch : String → String → Bool)
    (query : String) (limit : Nat) :
    sortedByB searchRowGE (searchActors db ftsMatch query limit) = true := by
  unfold searchActors
  by_cases hn : normalizeInput query = ""
  · rw [if_pos hn]; rfl
  · rw [if_neg hn]
    cases htry : tryFts (fun fq => stmtSearchActors db ftsMatch fq limit)
        (toFtsQueries (normalizeInput query)) with
    | none => exact sortedByB_stmtSearchActorsLike db _ limit
    | some rs =>
      rw [tryFts_eq_find] at htry
      cases hfind : (toFtsQueries (normalizeInput query)).find?
          (fun fq => !(stmtSearchActors db ftsMatch fq limit).isEmpty) with
      | none => rw [hfind] at htry; simp at htry
      | some fq =>
        rw [hfind] at htry
        simp only [Option.map_some', Option.some.injEq] at htry
        rw [← htry]
        exact sortedByB_stmtSearchActors db ftsMatch fq limit

/-! ### Emptiness transport through sorting and LIMIT -/

theorem insertSorted_isEmpty {α : Type} (r : α → α → Bool) (x : α) (l : List α) :
    (insertSorted r x l).isEmpty = false := by
  cases l with
  | nil => rfl
  | cons y ys =>
    simp only [insertSorted]
    by_cases h : r x y = true
    · rw [if_pos h]; rfl
    · rw [if_neg h]; rfl

theorem sortByB_isEmpty {α : Type} (r : α → α → Bool) (l : List α) :
    (sortByB r l).isEmpty = l.isEmpty := by
  cases l with
  | nil => rfl
  | cons x xs => simp [sortByB, insertSorted_isEmpty]

theorem take5_isEmpty {α : Type} (l : List α) : (l.take 5).isEmpty = l.isEmpty := by
  cases l <;> rfl

theorem head?_isSome_eq {α : Type} (l : List α) : l.head?.isSome = !l.isEmpty := by
  cases l <;> rfl

/-! ### Example store and round states (witness scenarios) -/

/-- A small store: `tt1` casts `nm1` (billing 1) and `nm2` (billing 2);
`tt2` casts `nm1`; both titles are well-voted post-1960 movies. -/
def exDb : DB :=
  ⟨[⟨"tt1", "nm1", "actor", 1⟩, ⟨"tt1", "nm2", "actress", 2⟩, ⟨"tt2", "nm1", "actor", 1⟩],
   [⟨"tt1", "Movie One", "movie", 2000⟩, ⟨"tt2", "Movie Two", "movie", 2001⟩],
   [⟨"nm1", "Actor One"⟩, ⟨"nm2", "Actor Two"⟩],
   [⟨"tt1", 500000⟩, ⟨"tt2", 400000⟩]⟩

/-- Playing, human to move, facing movie `tt1`. -/
def exG1 : Game :=
  ⟨GState.playing, some Player.human, some ItemType.movie, some "tt1",
   [], ["tt1"], ⟨0, 0⟩, 1, none, 5⟩

/-- Playing, human to move, facing actor `nm1`. -/
def exG2 : Game :=
  ⟨GState.playing, some Player.human, some ItemType.actor, some "nm1",
   ["nm1"], [], ⟨0, 0⟩, 1, none, 5⟩

/-- Playing, computer to move, facing movie `tt1`. -/
def exG3 : Game :=
  ⟨GState.playing, some Player.computer, some ItemType.movie, some "tt1",
   [], ["tt1"], ⟨0, 0⟩, 1, none, 5⟩

/-- Playing, human to move, facing movie `tt1`, with `nm1` already used. -/
def exG4 : Game :=
  ⟨GState.playing, some Player.human, some ItemType.movie, some "tt1",
   ["nm1"], ["tt1"], ⟨0, 0⟩, 1, none, 5⟩

/-- A resolver stub returning the single actor `nm1`. -/
def exSearchNm1 : String → List String := fun _ => ["nm1"]

/-- A resolver stub returning the single movie `tt2`. -/
def exSearchTt2 : String → List String := fun _ => ["tt2"]

/-- A resolver stub whose best-ranked hit `nm9` is not in the store but whose
second hit `nm1` is. -/
def exSearchTwo : String → List String := fun _ => ["nm9", "nm1"]

/-- A resolver stub returning only the unknown actor `nm9`. -/
def exSearchBad : String → List String := fun _ => ["nm9"]

/-- A resolver stub returning only the unknown movie `tt9`. -/
def exSearchBadM : String → List String := fun _ => ["tt9"]

/-! ### The claims -/

/-- C1: For every human move, acceptance is decided solely by unrestricted
credited-cast membership between the resolved entity and the current
entity: the difficulty profile's maxOrdering, minYear, and minVotes values
have no effect on whether a human-submitted actor or movie is validated as
connected — the move function is independent of the profile, and every
accepted entity is credited-cast connected to the current entity under the
unrestricted relation. -/
theorem C1_validation_profile_independent
    (db : DB) (cfg cfg2 : Config) (sa sm : String → List String)
    (g0 : Game) (input0 : String)
    (g : Game) (input : String) (g' : Game) (id t : String)
    (gm : Game) (inputm : String) (gm' : Game) (idm n : String)
    (ht1 : g.currentItemType = some ItemType.movie) (hi1 : g.currentItemId = some t)
    (hv1 : humanMove db cfg sa sm g input = (g', .valid id))
    (ht2 : gm.currentItemType = some ItemType.actor) (hi2 : gm.currentItemId = some n)
    (hv2 : humanMove db cfg sa sm gm inputm = (gm', .valid idm)) :
    humanMove db cfg sa sm g0 input0 = humanMove db cfg2 sa sm g0 input0 ∧
      validActorInMovie db id t = true ∧ validActorInMovie db n idm = true := by
  refine ⟨rfl, ?_, ?_⟩
  · rcases humanMove_valid hv1 with ⟨t', _, hid', hv', _, _⟩ | ⟨n', htyne, _, _, _, _⟩
    · rw [hi1] at hid'
      injection hid' with hid'
      rw [hid']
      exact hv'
    · exact absurd ht1 htyne
  · rcases humanMove_valid hv2 with ⟨t', hty', _, _, _, _⟩ | ⟨n', _, hid', hv', _, _⟩
    · rw [ht2] at hty'
      simp at hty'
    · rw [hi2] at hid'
      injection hid' with hid'
      rw [hid']
      exact hv'

/-- C1 witness: a concrete movie-direction and actor-direction valid move on
the example store, with the Medium and Hard profiles giving the same
result. -/
theorem C1_validation_profile_independent_witness :
    humanMove exDb mediumConfig exSearchNm1 exSearchTt2 exG1 "x"
        = humanMove exDb hardConfig exSearchNm1 exSearchTt2 exG1 "x" ∧
      validActorInMovie exDb "nm1" "tt1" = true ∧
      validActorInMovie exDb "nm1" "tt2" = true :=
  C1_validation_profile_independent exDb mediumConfig hardConfig exSearchNm1 exSearchTt2
    exG1 "x" exG1 "x" (applyHumanActor exG1 "nm1") "nm1" "tt1"
    exG2 "x" (applyHumanMovie exG2 "tt2") "tt2" "nm1"
    (by decide) (by decide) (by decide) (by decide) (by decide) (by decide)

/-- C5: Ending a round increments exactly the round winner's score by one and
no other score; the game transitions to GameOver with that winner recorded
if and only if the incremented score reaches the rounds-to-win threshold,
and otherwise transitions to RoundOver. -/
theorem C5_endRound_scoring (g : Game) (w : Player) :
    scoreOf (endRound g w).scores w = scoreOf g.scores w + 1 ∧
      scoreOf (endRound g w).scores w.other = scoreOf g.scores w.other ∧
      (if g.roundsToWin ≤ scoreOf g.scores w + 1 then
        (endRound g w).gstate = GState.gameOver ∧ (endRound g w).winner = some w
       else
        (endRound g w).gstate = GState.roundOver ∧
          (endRound g w).gstate ≠ GState.gameOver ∧ (endRound g w).winner = g.winner) := by
  have hbump : scoreOf (bump g.scores w) w = scoreOf g.scores w + 1 := by
    cases w <;> rfl
  refine ⟨(endRound_scores g w).1, (endRound_scores g w).2, ?_⟩
  by_cases h : g.roundsToWin ≤ scoreOf g.scores w + 1
  · rw [if_pos h]
    unfold endRound
    rw [if_pos (by rw [hbump]; exact h)]
    exact ⟨rfl, rfl⟩
  · rw [if_neg h]
    unfold endRound
    rw [if_neg (by rw [hbump]; exact h)]
    exact ⟨rfl, by simp, rfl⟩

/-- C3: For every current entity, profile, and pair of used-sets, the
challenge proof search returns a witness if and only if the computer-move
candidate query for the same entity, profile, and used-sets yields at
least one candidate: both apply the same WHERE clause and the same used-id
exclusion, and ordering plus LIMIT preserve non-emptiness. -/
theorem C3_proof_search_iff_pick (db : DB) (cfg : Config) (t n : String)
    (usedA usedM : List String) :
    ((computerFindProofActor db cfg t usedA).isSome =
        !(pickActorCandidates db cfg t usedA).isEmpty) ∧
      ((computerFindProofMovie db cfg n usedM).isSome =
        !(pickMovieCandidates db cfg n usedM).isEmpty) := by
  constructor
  · rw [computerFindProofActor, head?_isSome_eq, pickActorCandidates,
      take5_isEmpty, sortByB_isEmpty]
  · rw [computerFindProofMovie, head?_isSome_eq, pickMovieCandidates,
      take5_isEmpty, sortByB_isEmpty]

/-- C7: For every input, whenever a human move returns a not-found,
not-connected, or already-used outcome, the turn is not consumed and the
entire round state — current item, item type, player, used-sets, scores
and game state — is unchanged: the resulting state equals the prior
state. -/
theorem C7_rejection_keeps_state (db : DB) (cfg : Config) (sa sm : String → List String)
    (g : Game) (input : String) (g' : Game) (o : MoveOutcome)
    (h : humanMove db cfg sa sm g input = (g', o))
    (ho : isRejectedOutcome o = true) : g' = g := by
  unfold humanMove at h
  by_cases hs : g.gstate ≠ GState.playing
  · rw [if_pos hs] at h
    simp only [Prod.mk.injEq] at h
    rw [← h.2] at ho
    simp [isRejectedOutcome] at ho
  · rw [if_neg hs] at h
    by_cases hp : g.currentPlayer ≠ some Player.human
    · rw [if_pos hp] at h
      simp only [Prod.mk.injEq] at h
      rw [← h.2] at ho
      simp [isRejectedOutcome] at ho
    · rw [if_neg hp] at h
      simp only at h
      by_cases hn : normalizeInput input = ""
      · rw [if_pos hn] at h
        simp only [Prod.mk.injEq] at h
        rw [← h.2] at ho
        simp [isRejectedOutcome] at ho
      · rw [if_neg hn] at h
        cases hct : g.currentItemType with
        | none =>
          cases hci : g.currentItemId with
          | none =>
            simp only [hct, hci, Prod.mk.injEq] at h
            rw [← h.2] at ho
            simp [isRejectedOutcome] at ho
          | some n =>
            simp only [hct, hci] at h
            exact humanPicksMovie_rejected h ho
        | some ty =>
          cases ty with
          | movie =>
            cases hci : g.currentItemId with
            | none =>
              simp only [hct, hci, Prod.mk.injEq] at h
              rw [← h.2] at ho
              simp [isRejectedOutcome] at ho
            | some t =>
              simp only [hct, hci] at h
              exact humanPicksActor_rejected h ho
          | actor =>
            cases hci : g.currentItemId with
            | none =>
              simp only [hct, hci, Prod.mk.injEq] at h
              rw [← h.2] at ho
              simp [isRejectedOutcome] at ho
            | some n =>
              simp only [hct, hci] at h
              exact humanPicksMovie_rejected h ho

/-- C7 witness: a not-found rejection on the example store leaves the state
untouched. -/
theorem C7_rejection_keeps_state_witness :
    isRejectedOutcome (humanMove exDb mediumConfig exSearchBad exSearchBadM exG1 "x").2
        = true ∧
      (humanMove exDb mediumConfig exSearchBad exSearchBadM exG1 "x").1 = exG1 :=
  ⟨by decide,
   C7_rejection_keeps_state exDb mediumConfig exSearchBad exSearchBadM exG1 "x"
     (humanMove exDb mediumConfig exSearchBad exSearchBadM exG1 "x").1
     (humanMove exDb mediumConfig exSearchBad exSearchBadM exG1 "x").2
     rfl (by decide)⟩

/-- C10: The human-move handler commits to the first resolver-ranked
candidate that is connected to the current entity: if that first connected
candidate's id is already in the matching used-set, the move is rejected
as already-used — even when a later-ranked resolved candidate exists that
is both connected and not yet used. -/
theorem C10_commits_to_first_connected (db : DB) (g1 g2 : Game) (t n : String)
    (actors movies : List String) (a m b mm : String)
    (ha : findFirstConnectedActor db t actors = some a)
    (hused : g1.usedActors.contains a = true)
    (hb : b ∈ actors) (hbc : validActorInMovie db b t = true)
    (hbu : g1.usedActors.contains b = false)
    (hm : findFirstConnectedMovie db n movies = some m)
    (hmused : g2.usedMovies.contains m = true)
    (hmm : mm ∈ movies) (hmmc : validActorInMovie db n mm = true)
    (hmmu : g2.usedMovies.contains mm = false) :
    humanPicksActor db g1 t actors = (g1, .alreadyUsed a) ∧
      humanPicksMovie db g2 n movies = (g2, .alreadyUsed m) := by
  constructor
  · cases actors with
    | nil => simp [findFirstConnectedActor] at ha
    | cons a0 rest =>
      simp only [humanPicksActor, ha]
      rw [if_pos hused]
  · cases movies with
    | nil => simp [findFirstConnectedMovie] at hm
    | cons m0 rest =>
      simp only [humanPicksMovie, hm]
      rw [if_pos hmused]

/-- C10 witness: on the example store, the loop finds `nm1` (connected,
already used) first and rejects, although `nm2` is connected and unused;
symmetrically for movies with `tt1` used and `tt2` available. -/
theorem C10_commits_to_first_connected_witness :
    humanPicksActor exDb exG4 "tt1" ["nm1", "nm2"] = (exG4, .alreadyUsed "nm1") ∧
      humanPicksMovie exDb exG4 "nm1" ["tt1", "tt2"] = (exG4, .alreadyUsed "tt1") :=
  C10_commits_to_first_connected exDb exG4 exG4 "tt1" "nm1"
    ["nm1", "nm2"] ["tt1", "tt2"] "nm1" "tt1" "nm2" "tt2"
    (by decide) (by decide) (by decide) (by decide) (by decide)
    (by decide) (by decide) (by decide) (by decide) (by decide)

/-- C2: In the Playing state on the human's turn, a challenge evaluates the
proof search for the current entity under the computer's knowledge
profile: a witness makes the Computer win the round with the witness
surfaced as proof — that witness being connected to the current entity and
in neither used-set — and no witness makes the Human win the round.  Both
directions (current movie / current actor) are covered. -/
theorem C2_challenge_adjudication (db : DB) (cfg : Config)
    (g : Game) (t : String) (g' : Game) (o : ChallengeOutcome) (c : ActorCand)
    (g2 : Game) (n : String) (g2' : Game) (o2 : ChallengeOutcome) (c2 : MovieCand)
    (hs : g.gstate = GState.playing) (hp : g.currentPlayer = some Player.human)
    (ht : g.currentItemType = some ItemType.movie) (hi : g.currentItemId = some t)
    (hwf : WellFormedB db g.usedActors g.usedMovies = true)
    (hch : humanChallenge db cfg g = (g', o))
    (hs2 : g2.gstate = GState.playing) (hp2 : g2.currentPlayer = some Player.human)
    (ht2 : g2.currentItemType = some ItemType.actor) (hi2 : g2.currentItemId = some n)
    (hwf2 : WellFormedB db g2.usedActors g2.usedMovies = true)
    (hch2 : humanChallenge db cfg g2 = (g2', o2)) :
    (computerFindProofActor db cfg t g.usedActors = some c →
        o = .computerWins c.nconst ∧
          g'.scores.computer = g.scores.computer + 1 ∧
          g'.scores.human = g.scores.human ∧
          validActorInMovie db c.nconst t = true ∧
          g.usedActors.contains c.nconst = false ∧
          g.usedMovies.contains c.nconst = false) ∧
      (computerFindProofActor db cfg t g.usedActors = none →
        o = .humanWins ∧ g'.scores.human = g.scores.human + 1 ∧
          g'.scores.computer = g.scores.computer) ∧
      (computerFindProofMovie db cfg n g2.usedMovies = some c2 →
        o2 = .computerWins c2.tconst ∧
          g2'.scores.computer = g2.scores.computer + 1 ∧
          g2'.scores.human = g2.scores.human ∧
          validActorInMovie db n c2.tconst = true ∧
          g2.usedMovies.contains c2.tconst = false ∧
          g2.usedActors.contains c2.tconst = false) ∧
      (computerFindProofMovie db cfg n g2.usedMovies = none →
        o2 = .humanWins ∧ g2'.scores.human = g2.scores.human + 1 ∧
          g2'.scores.computer = g2.scores.computer) := by
  rw [humanChallenge_movie_eq hs hp ht hi] at hch
  rw [humanChallenge_actor_eq hs2 hp2 ht2 hi2] at hch2
  refine ⟨?_, ?_, ?_, ?_⟩
  · intro hpf
    rw [hpf] at hch
    simp only [Prod.mk.injEq] at hch
    obtain ⟨hg', ho⟩ := hch
    obtain ⟨hvalid, _, hnotused, hmemA⟩ :=
      mem_computerPickActorRows (computerFindProofActor_mem hpf)
    have hscore := endRound_scores { g with gstate := GState.challengePending } Player.computer
    refine ⟨ho.symm, ?_, ?_, hvalid, hnotused, wf_notMem_usedMovies hwf hmemA⟩
    · rw [← hg']
      exact hscore.1
    · rw [← hg']
      exact hscore.2
  · intro hpf
    rw [hpf] at hch
    simp only [Prod.mk.injEq] at hch
    obtain ⟨hg', ho⟩ := hch
    have hscore := endRound_scores { g with gstate := GState.challengePending } Player.human
    refine ⟨ho.symm, ?_, ?_⟩
    · rw [← hg']
      exact hscore.1
    · rw [← hg']
      exact hscore.2
  · intro hpf
    rw [hpf] at hch2
    simp only [Prod.mk.injEq] at hch2
    obtain ⟨hg', ho⟩ := hch2
    obtain ⟨hvalid, _, _, _, hnotused, hmemM⟩ :=
      mem_computerPickMovieRows (computerFindProofMovie_mem hpf)
    have hscore := endRound_scores { g2 with gstate := GState.challengePending } Player.computer
    refine ⟨ho.symm, ?_, ?_, hvalid, hnotused, wf_notMem_usedActors hwf2 hmemM⟩
    · rw [← hg']
      exact hscore.1
    · rw [← hg']
      exact hscore.2
  · intro hpf
    rw [hpf] at hch2
    simp only [Prod.mk.injEq] at hch2
    obtain ⟨hg', ho⟩ := hch2
    have hscore := endRound_scores { g2 with gstate := GState.challengePending } Player.human
    refine ⟨ho.symm, ?_, ?_⟩
    · rw [← hg']
      exact hscore.1
    · rw [← hg']
      exact hscore.2

/-- C2 witness: concrete challenges on the example store — facing movie
`tt1` the proof actor `nm1` exists, facing actor `nm1` the proof movie
`tt1` exists; both make the computer win the round with the witness as
proof. -/
theorem C2_challenge_adjudication_witness :
    (computerFindProofActor exDb mediumConfig "tt1" exG1.usedActors = some ⟨"nm1", 1, 2⟩ →
        (humanChallenge exDb mediumConfig exG1).2 = .computerWins "nm1" ∧
          (humanChallenge exDb mediumConfig exG1).1.scores.computer
              = exG1.scores.computer + 1 ∧
          (humanChallenge exDb mediumConfig exG1).1.scores.human = exG1.scores.human ∧
          validActorInMovie exDb "nm1" "tt1" = true ∧
          exG1.usedActors.contains "nm1" = false ∧
          exG1.usedMovies.contains "nm1" = false) ∧
      (computerFindProofActor exDb mediumConfig "tt1" exG1.usedActors = none →
        (humanChallenge exDb mediumConfig exG1).2 = .humanWins ∧
          (humanChallenge exDb mediumConfig exG1).1.scores.human = exG1.scores.human + 1 ∧
          (humanChallenge exDb mediumConfig exG1).1.scores.computer = exG1.scores.computer) ∧
      (computerFindProofMovie exDb mediumConfig "nm1" exG2.usedMovies
            = some ⟨"tt1", 2000, 1, 2, 500000⟩ →
        (humanChallenge exDb mediumConfig exG2).2 = .computerWins "tt1" ∧
          (humanChallenge exDb mediumConfig exG2).1.scores.computer
              = exG2.scores.computer + 1 ∧
          (humanChallenge exDb mediumConfig exG2).1.scores.human = exG2.scores.human ∧
          validActorInMovie exDb "nm1" "tt1" = true ∧
          exG2.usedMovies.contains "tt1" = false ∧
          exG2.usedActors.contains "tt1" = false) ∧
      (computerFindProofMovie exDb mediumConfig "nm1" exG2.usedMovies = none →
        (humanChallenge exDb mediumConfig exG2).2 = .humanWins ∧
          (humanChallenge exDb mediumConfig exG2).1.scores.human = exG2.scores.human + 1 ∧
          (humanChallenge exDb mediumConfig exG2).1.scores.computer = exG2.scores.computer) :=
  C2_challenge_adjudication exDb mediumConfig
    exG1 "tt1" (humanChallenge exDb mediumConfig exG1).1
    (humanChallenge exDb mediumConfig exG1).2 ⟨"nm1", 1, 2⟩
    exG2 "nm1" (humanChallenge exDb mediumConfig exG2).1
    (humanChallenge exDb mediumConfig exG2).2 ⟨"tt1", 2000, 1, 2, 500000⟩
    (by decide) (by decide) (by decide) (by decide) (by decide) rfl
    (by decide) (by decide) (by decide) (by decide) (by decide) rfl

/-- C4: Throughout a round, no accepted human move, computer move, or
challenge proof witness is an entity whose id is already present in either
used-set at the time of the move (in a well-formed state, where used ids
respect the store's disjoint actor/movie id namespaces), and the used-sets
only grow under every human move, computer move, and challenge. -/
theorem C4_no_reuse_and_growth (db : DB) (cfg : Config) (sa sm : String → List String)
    (r : Nat) (input : String)
    (g1 g1' : Game) (id1 : String)
    (g2 : Game) (p2 : Game × MoveOutcome)
    (g3 g3' : Game) (id3 : String)
    (g4 : Game) (p4 : Game × CompOutcome)
    (t5 : String) (used5A used5M : List String) (c5 : ActorCand)
    (n6 : String) (used6A used6M : List String) (c6 : MovieCand)
    (g7 : Game) (p7 : Game × ChallengeOutcome)
    (hwf1 : WellFormedB db g1.usedActors g1.usedMovies = true)
    (h1 : humanMove db cfg sa sm g1 input = (g1', .valid id1))
    (h2 : humanMove db cfg sa sm g2 input = p2)
    (hwf3 : WellFormedB db g3.usedActors g3.usedMovies = true)
    (h3 : computerMove db cfg r g3 = (g3', .moved id3))
    (h4 : computerMove db cfg r g4 = p4)
    (hwf5 : WellFormedB db used5A used5M = true)
    (h5 : computerFindProofActor db cfg t5 used5A = some c5)
    (hwf6 : WellFormedB db used6A used6M = true)
    (h6 : computerFindProofMovie db cfg n6 used6M = some c6)
    (h7 : humanChallenge db cfg g7 = p7) :
    (g1.usedActors.contains id1 = false ∧ g1.usedMovies.contains id1 = false ∧
        subsetB g1.usedActors g1'.usedActors = true ∧
        subsetB g1.usedMovies g1'.usedMovies = true) ∧
      (subsetB g2.usedActors p2.1.usedActors = true ∧
        subsetB g2.usedMovies p2.1.usedMovies = true) ∧
      (g3.usedActors.contains id3 = false ∧ g3.usedMovies.contains id3 = false ∧
        subsetB g3.usedActors g3'.usedActors = true ∧
        subsetB g3.usedMovies g3'.usedMovies = true) ∧
      (subsetB g4.usedActors p4.1.usedActors = true ∧
        subsetB g4.usedMovies p4.1.usedMovies = true) ∧
      (used5A.contains c5.nconst = false ∧ used5M.contains c5.nconst = false) ∧
      (used6M.contains c6.tconst = false ∧ used6A.contains c6.tconst = false) ∧
      (subsetB g7.usedActors p7.1.usedActors = true ∧
        subsetB g7.usedMovies p7.1.usedMovies = true) := by
  have grow : ∀ (g g' : Game),
      ((g'.usedActors = g.usedActors ∧ g'.usedMovies = g.usedMovies) ∨
        (∃ a, g'.usedActors = a :: g.usedActors ∧ g'.usedMovies = g.usedMovies) ∨
        (∃ m, g'.usedActors = g.usedActors ∧ g'.usedMovies = m :: g.usedMovies)) →
      subsetB g.usedActors g'.usedActors = true ∧
        subsetB g.usedMovies g'.usedMovies = true := by
    intro g g' hcase
    rcases hcase with ⟨ha, hm⟩ | ⟨a, ha, hm⟩ | ⟨m, ha, hm⟩
    · rw [ha, hm]
      exact ⟨subsetB_refl _, subsetB_refl _⟩
    · rw [ha, hm]
      exact ⟨subsetB_cons _ _, subsetB_refl _⟩
    · rw [ha, hm]
      exact ⟨subsetB_refl _, subsetB_cons _ _⟩
  refine ⟨?_, ?_, ?_, ?_, ?_, ?_, ?_⟩
  · obtain ⟨hgrow1, hgrow2⟩ := grow g1 g1' (humanMove_used_sets h1)
    rcases humanMove_valid h1 with ⟨t, _, _, hv, hu, _⟩ | ⟨n, _, _, hv, hu, _⟩
    · exact ⟨hu, wf_notMem_usedMovies hwf1 (valid_actor_mem_actorIds hv), hgrow1, hgrow2⟩
    · exact ⟨wf_notMem_usedActors hwf1 (valid_movie_mem_movieIds hv), hu, hgrow1, hgrow2⟩
  · exact grow g2 p2.1 (humanMove_used_sets (by rw [h2]))
  · obtain ⟨hgrow1, hgrow2⟩ := grow g3 g3' (computerMove_used_sets h3)
    rcases computerMove_moved h3 with ⟨t, pick, _, hmem, hid, _, _⟩ |
        ⟨n, pick, _, hmem, hid, _, _⟩
    · obtain ⟨hv, _, hu, hmemA⟩ := mem_computerPickActorRows hmem
      rw [hid]
      exact ⟨hu, wf_notMem_usedMovies hwf3 hmemA, hgrow1, hgrow2⟩
    · obtain ⟨hv, _, _, _, hu, hmemM⟩ := mem_computerPickMovieRows hmem
      rw [hid]
      exact ⟨wf_notMem_usedActors hwf3 hmemM, hu, hgrow1, hgrow2⟩
  · exact grow g4 p4.1 (computerMove_used_sets (by rw [h4]))
  · obtain ⟨hv, _, hu, hmemA⟩ := mem_computerPickActorRows (computerFindProofActor_mem h5)
    exact ⟨hu, wf_notMem_usedMovies hwf5 hmemA⟩
  · obtain ⟨hv, _, _, _, hu, hmemM⟩ :=
      mem_computerPickMovieRows (computerFindProofMovie_mem h6)
    exact ⟨hu, wf_notMem_usedActors hwf6 hmemM⟩
  · obtain ⟨ha, hm⟩ := humanChallenge_used_sets (show humanChallenge db cfg g7 = (p7.1, p7.2) by rw [h7])
    rw [ha, hm]
    exact ⟨subsetB_refl _, subsetB_refl _⟩

/-- C4 witness: a concrete valid human move, computer move, proof searches
and challenge on the example store, all respecting the no-reuse and
growth conclusions. -/
theorem C4_no_reuse_and_growth_witness :
    (exG1.usedActors.contains "nm1" = false ∧ exG1.usedMovies.contains "nm1" = false ∧
        subsetB exG1.usedActors (applyHumanActor exG1 "nm1").usedActors = true ∧
        subsetB exG1.usedMovies (applyHumanActor exG1 "nm1").usedMovies = true) ∧
      (subsetB exG1.usedActors (humanMove exDb mediumConfig exSearchNm1 exSearchTt2 exG1 "x").1.usedActors = true ∧
        subsetB exG1.usedMovies (humanMove exDb mediumConfig exSearchNm1 exSearchTt2 exG1 "x").1.usedMovies = true) ∧
      (exG3.usedActors.contains "nm1" = false ∧ exG3.usedMovies.contains "nm1" = false ∧
        subsetB exG3.usedActors (computerMove exDb mediumConfig 0 exG3).1.usedActors = true ∧
        subsetB exG3.usedMovies (computerMove exDb mediumConfig 0 exG3).1.usedMovies = true) ∧
      (subsetB exG3.usedActors (computerMove exDb mediumConfig 0 exG3).1.usedActors = true ∧
        subsetB exG3.usedMovies (computerMove exDb mediumConfig 0 exG3).1.usedMovies = true) ∧
      (List.contains [] (ActorCand.nconst ⟨"nm1", 1, 2⟩) = false ∧
        List.contains ["tt1"] (ActorCand.nconst ⟨"nm1", 1, 2⟩) = false) ∧
      (List.contains [] (MovieCand.tconst ⟨"tt1", 2000, 1, 2, 500000⟩) = false ∧
        List.contains ["nm1"] (MovieCand.tconst ⟨"tt1", 2000, 1, 2, 500000⟩) = false) ∧
      (subsetB exG1.usedActors (humanChallenge exDb mediumConfig exG1).1.usedActors = true ∧
        subsetB exG1.usedMovies (humanChallenge exDb mediumConfig exG1).1.usedMovies = true) :=
  C4_no_reuse_and_growth exDb mediumConfig exSearchNm1 exSearchTt2 0 "x"
    exG1 (applyHumanActor exG1 "nm1") "nm1"
    exG1 (humanMove exDb mediumConfig exSearchNm1 exSearchTt2 exG1 "x")
    exG3 (computerMove exDb mediumConfig 0 exG3).1 "nm1"
    exG3 (computerMove exDb mediumConfig 0 exG3)
    "tt1" [] ["tt1"] ⟨"nm1", 1, 2⟩
    "nm1" ["nm1"] [] ⟨"tt1", 2000, 1, 2, 500000⟩
    exG1 (humanChallenge exDb mediumConfig exG1)
    (by decide) (by decide) rfl (by decide) (by decide) rfl
    (by decide) (by decide) (by decide) (by decide) rfl

/-- Modelled from the spec: C6's claimed actor-direction query — the same
base query as the source, additionally restricted by the profile's
`minYear` and `minVotes` thresholds on the edge's movie, so that all three
profile filters act in both directions. -/
def computerPickActorRowsClaimed (db : DB) (cfg : Config) (t : String)
    (used : List String) : List ActorCand :=
  (db.principals.filter (fun p =>
      actorRowPred db t cfg.maxOrdering used p &&
        (match lookupTitle db p.tconst with
         | some tt => decide (cfg.minYear ≤ tt.startYear)
         | none => false) &&
        decide (cfg.minVotes ≤ numVotesOf db p.tconst))).map
    (fun p => ⟨p.nconst, p.ordering, careerSize db p.nconst⟩)

/-- A store whose only movie `tt1` (year 1950, no rating votes) fails the
Medium profile's year and votes thresholds while casting `nm1`. -/
def oldDb : DB :=
  ⟨[⟨"tt1", "nm1", "actor", 1⟩],
   [⟨"tt1", "Old Movie", "movie", 1950⟩],
   [⟨"nm1", "Old Actor"⟩],
   []⟩

/-- C6 counterexample: picking an actor from a movie is *not* restricted by
the year and votes filters — for the 1950 unrated movie `tt1` under the
Medium profile (minYear 1960, minVotes 10000) the source's actor query
still returns a candidate, while a query restricted by all three profile
filters would return none. -/
theorem C6_counterexample :
    computerPickActorRows oldDb "tt1" mediumConfig.maxOrdering [] ≠ [] ∧
      computerPickActorRowsClaimed oldDb mediumConfig "tt1" [] = [] ∧
      yearOf oldDb "tt1" < mediumConfig.minYear ∧
      numVotesOf oldDb "tt1" < mediumConfig.minVotes := by
  refine ⟨by decide, by decide, by decide, by decide⟩

/-- C6 (amended): both candidate-selection operations — the pick queries and
the proof queries — apply all three profile filters (billing ≤
maxOrdering, year ≥ minYear, votes ≥ minVotes) in the movie-picking
direction and the billing filter in the actor-picking direction (the year
and votes thresholds are not re-applied to the already-fixed current
movie), and in both directions every id of the exclude set is excluded. -/
theorem C6_amended_filters (db : DB) (cfg : Config) (t n : String)
    (usedA usedM : List String) :
    (pickActorCandidates db cfg t usedA).all
        (fun c => decide (c.ordering ≤ cfg.maxOrdering) && !usedA.contains c.nconst) = true ∧
      Option.all
        (fun c => decide (c.ordering ≤ cfg.maxOrdering) && !usedA.contains c.nconst)
        (computerFindProofActor db cfg t usedA) = true ∧
      (pickMovieCandidates db cfg n usedM).all
        (fun c => decide (c.ordering ≤ cfg.maxOrdering) && decide (cfg.minYear ≤ c.startYear) &&
          decide (cfg.minVotes ≤ c.numVotes) && !usedM.contains c.tconst) = true ∧
      Option.all
        (fun c => decide (c.ordering ≤ cfg.maxOrdering) && decide (cfg.minYear ≤ c.startYear) &&
          decide (cfg.minVotes ≤ c.numVotes) && !usedM.contains c.tconst)
        (computerFindProofMovie db cfg n usedM) = true := by
  have actorFacts : ∀ c, c ∈ computerPickActorRows db t cfg.maxOrdering usedA →
      (decide (c.ordering ≤ cfg.maxOrdering) && !usedA.contains c.nconst) = true := by
    intro c hc
    obtain ⟨_, hord, hu, _⟩ := mem_computerPickActorRows hc
    simp only [Bool.and_eq_true, decide_eq_true_eq, Bool.not_eq_true']
    exact ⟨hord, hu⟩
  have movieFacts : ∀ c, c ∈ computerPickMovieRows db n cfg usedM →
      (decide (c.ordering ≤ cfg.maxOrdering) && decide (cfg.minYear ≤ c.startYear) &&
        decide (cfg.minVotes ≤ c.numVotes) && !usedM.contains c.tconst) = true := by
    intro c hc
    obtain ⟨_, hord, hy, hv, hu, _⟩ := mem_computerPickMovieRows hc
    simp only [Bool.and_eq_true, decide_eq_true_eq, Bool.not_eq_true']
    exact ⟨⟨⟨hord, hy⟩, hv⟩, hu⟩
  refine ⟨?_, ?_, ?_, ?_⟩
  · rw [List.all_eq_true]
    intro c hc
    exact actorFacts c (mem_pickActorCandidates hc)
  · cases hpf : computerFindProofActor db cfg t usedA with
    | none => rfl
    | some c => exact actorFacts c (computerFindProofActor_mem hpf)
  · rw [List.all_eq_true]
    intro c hc
    exact movieFacts c (mem_pickMovieCandidates hc)
  · cases hpf : computerFindProofMovie db cfg n usedM with
    | none => rfl
    | some c => exact movieFacts c (computerFindProofMovie_mem hpf)

/-- C8 counterexample: the best-ranked resolved match `nm9` fails
connectivity to the current movie `tt1`, yet the move does *not* return
the not-connected outcome — the loop goes on to the second-ranked
connected match `nm1`, accepts it, and consumes the turn. -/
theorem C8_counterexample :
    (exSearchTwo "x").head? = some "nm9" ∧
      validActorInMovie exDb "nm9" "tt1" = false ∧
      (humanMove exDb mediumConfig exSearchTwo exSearchTwo exG1 "x").2 = .valid "nm1" ∧
      (humanMove exDb mediumConfig exSearchTwo exSearchTwo exG1 "x").1.currentPlayer
          = some Player.computer := by
  refine ⟨by decide, by decide, by decide, by decide⟩

/-- C8 (amended): when the resolver returns at least one match and *every*
resolved match fails connectivity to the current entity, the move returns
the not-connected outcome naming the best-ranked match and the turn is not
consumed (the state is unchanged); connectivity commits to the first
connected match in rank order, not only the best-ranked one. -/
theorem C8_amended_not_connected (db : DB) (cfg : Config) (sa sm : String → List String)
    (g : Game) (input t : String) (a0 : String) (rest : List String)
    (g2 : Game) (input2 n : String) (m0 : String) (rest2 : List String)
    (hs : g.gstate = GState.playing) (hp : g.currentPlayer = some Player.human)
    (hn : ¬ normalizeInput input = "")
    (ht : g.currentItemType = some ItemType.movie) (hi : g.currentItemId = some t)
    (hres : sa (normalizeInput input) = a0 :: rest)
    (hall : (a0 :: rest).all (fun a => !(validActorInMovie db a t)) = true)
    (hs2 : g2.gstate = GState.playing) (hp2 : g2.currentPlayer = some Player.human)
    (hn2 : ¬ normalizeInput input2 = "")
    (ht2 : g2.currentItemType = some ItemType.actor) (hi2 : g2.currentItemId = some n)
    (hres2 : sm (normalizeInput input2) = m0 :: rest2)
    (hall2 : (m0 :: rest2).all (fun m => !(validActorInMovie db n m)) = true) :
    humanMove db cfg sa sm g input = (g, .notConnected a0) ∧
      humanMove db cfg sa sm g2 input2 = (g2, .notConnected m0) := by
  constructor
  · rw [humanMove_eq_picksActor hs hp hn ht hi, hres]
    simp [humanPicksActor, findFirstConnectedActor_none_of_all hall]
  · rw [humanMove_eq_picksMovie hs2 hp2 hn2 ht2 hi2, hres2]
    simp [humanPicksMovie, findFirstConnectedMovie_none_of_all hall2]

/-- C8 witness: resolver stubs returning only entities absent from the store
produce the not-connected outcome with the state unchanged, in both
directions. -/
theorem C8_amended_not_connected_witness :
    humanMove exDb mediumConfig exSearchBad exSearchBadM exG1 "x"
        = (exG1, .notConnected "nm9") ∧
      humanMove exDb mediumConfig exSearchBad exSearchBadM exG2 "x"
        = (exG2, .notConnected "tt9") :=
  C8_amended_not_connected exDb mediumConfig exSearchBad exSearchBadM
    exG1 "x" "tt1" "nm9" [] exG2 "x" "nm1" "tt9" []
    (by decide) (by decide) (by decide) (by decide) (by decide) (by decide) (by decide)
    (by decide) (by decide) (by decide) (by decide) (by decide) (by decide) (by decide)

/-- C9 counterexample: for the multi-word punctuated input
"spider-man movie" the source tries the token conjunction of the
*un-stripped* phrase immediately after that phrase — before the
punctuation-stripped phrase — so the variant order is not "normalized
phrase; stripped phrase; token conjunction" as claimed. -/
theorem C9_counterexample :
    toFtsQueries "spider-man movie" ≠ toFtsQueriesClaimed "spider-man movie" ∧
      toFtsQueries "spider-man movie" =
        ["\x22spider-man movie\x22", "\x22spider-man\x22 AND \x22movie\x22",
         "\x22spiderman movie\x22", "\x22spiderman\x22 AND \x22movie\x22"] ∧
      toFtsQueriesClaimed "spider-man movie" =
        ["\x22spider-man movie\x22", "\x22spiderman movie\x22",
         "\x22spider-man\x22 AND \x22movie\x22"] := by
  refine ⟨by decide, by decide, by decide⟩

/-- C9 (amended): for every non-empty input the resolver tries, for each
phrase variant in order — the normalized phrase, then the
punctuation-stripped phrase when different — the variant as a phrase and
then the conjunction of that variant's tokens of length ≥ 3 (a single
qualifying token as a quoted word), deduplicated in order of first
appearance; it returns the first variant's results once any variant yields
at least one match, ranked by the movie-count popularity proxy descending,
and falls back to the case-insensitive substring search only when no fuzzy
variant matches. -/
theorem C9_amended_resolver (db : DB) (ftsMatch : String → String → Bool)
    (input query : String) (limit : Nat) :
    toFtsQueries input = toFtsQueriesAmended input ∧
      searchActors db ftsMatch query limit =
        (if normalizeInput query = "" then []
         else
           match (toFtsQueries (normalizeInput query)).find?
               (fun fq => !(stmtSearchActors db ftsMatch fq limit).isEmpty) with
           | some fq => stmtSearchActors db ftsMatch fq limit
           | none => stmtSearchActorsLike db (normalizeForLike query) limit) ∧
      sortedByB searchRowGE (searchActors db ftsMatch query limit) = true := by
  refine ⟨toFtsQueries_eq_amended input, ?_, sortedByB_searchActors db ftsMatch query limit⟩
  unfold searchActors
  by_cases hn : normalizeInput query = ""
  · rw [if_pos hn, if_pos hn]
  · rw [if_neg hn, if_neg hn]
    rw [tryFts_eq_find]
    cases hfind : (toFtsQueries (normalizeInput query)).find?
        (fun fq => !(stmtSearchActors db ftsMatch fq limit).isEmpty) with
    | none => rfl
    | some fq => rfl

end MovieActor
